import Mathlib

set_option maxRecDepth 100000

/-!
Verification development for the Crystal3D conversion pipeline.

Shallow embedding of the core conversion code:
  - src/converter/material_standardizer.py  (MaterialStandardizer)
  - src/ase_converter.py                    (ASEConverter)
  - src/pymatgen_converter.py               (PymatgenConverter)
  - src/converter/reliable_cif_converter.py (ReliableCIFConverter)
  - src/converter/main_converter.py         (CIFToUSDZConverter)

Numeric model: the Python code computes with floats; here all color and
coordinate arithmetic that the claims depend on is carried out in exact
arithmetic.  Colors use an explicit integer-fraction representation
(numerator, positive denominator) so that every comparison the code makes
is kernel-decidable; sphere geometry uses real numbers so that the exact
trigonometric identities at the sphere poles can be stated.
-/

/-! ## Exact fractions

A fraction is a pair (numerator, denominator); every constructor used in
this file produces a positive denominator, and the comparison operations
below are the standard cross-multiplication forms, which agree with the
rational-number comparisons whenever both denominators are positive.
-/

/-- Fraction as numerator and (positive, by construction) denominator. -/
abbrev Frac := Int × Int

/-- Fraction with denominator 1000; the color tables of the source write
their components with at most three decimal digits. -/
def fr (n : Int) : Frac := (n, 1000)

/-- Fraction subtraction. -/
def fSub (a b : Frac) : Frac := (a.1 * b.2 - b.1 * a.2, a.2 * b.2)

/-- Fraction addition. -/
def fAdd (a b : Frac) : Frac := (a.1 * b.2 + b.1 * a.2, a.2 * b.2)

/-- Fraction multiplication. -/
def fMul (a b : Frac) : Frac := (a.1 * b.1, a.2 * b.2)

/-- Strict comparison by cross multiplication (valid for positive denominators). -/
def fLtb (a b : Frac) : Bool := a.1 * b.2 < b.1 * a.2

/-- RGB color, components in the 0..1 range. -/
abbrev Color := Frac × Frac × Frac

/-! ## MaterialStandardizer (src/converter/material_standardizer.py) -/

/-- STANDARD_CPK_COLORS of MaterialStandardizer, transcribed value for value
(components are thousandths). -/
def cpkColors : List (String × Color) := [
  ("H", (fr 1000, fr 1000, fr 1000)),
  ("He", (fr 850, fr 1000, fr 1000)),
  ("Li", (fr 800, fr 500, fr 1000)),
  ("Be", (fr 760, fr 1000, fr 0)),
  ("B", (fr 1000, fr 710, fr 710)),
  ("C", (fr 565, fr 565, fr 565)),
  ("N", (fr 190, fr 310, fr 970)),
  ("O", (fr 1000, fr 50, fr 50)),
  ("F", (fr 560, fr 880, fr 310)),
  ("Ne", (fr 700, fr 890, fr 960)),
  ("Na", (fr 670, fr 360, fr 950)),
  ("Mg", (fr 540, fr 1000, fr 0)),
  ("Al", (fr 750, fr 650, fr 650)),
  ("Si", (fr 940, fr 780, fr 630)),
  ("P", (fr 1000, fr 500, fr 0)),
  ("S", (fr 1000, fr 1000, fr 190)),
  ("Cl", (fr 0, fr 1000, fr 0)),
  ("Ar", (fr 500, fr 820, fr 890)),
  ("K", (fr 560, fr 250, fr 830)),
  ("Ca", (fr 240, fr 1000, fr 0)),
  ("Sc", (fr 900, fr 900, fr 900)),
  ("Ti", (fr 750, fr 760, fr 780)),
  ("V", (fr 650, fr 650, fr 670)),
  ("Cr", (fr 540, fr 600, fr 780)),
  ("Mn", (fr 610, fr 480, fr 780)),
  ("Fe", (fr 880, fr 400, fr 200)),
  ("Co", (fr 940, fr 560, fr 630)),
  ("Ni", (fr 310, fr 820, fr 310)),
  ("Cu", (fr 780, fr 500, fr 200)),
  ("Zn", (fr 490, fr 500, fr 690)),
  ("Ga", (fr 760, fr 560, fr 560)),
  ("Ge", (fr 400, fr 560, fr 560)),
  ("As", (fr 740, fr 500, fr 890)),
  ("Se", (fr 1000, fr 630, fr 0)),
  ("Br", (fr 650, fr 160, fr 160)),
  ("Kr", (fr 360, fr 720, fr 820)),
  ("Rb", (fr 440, fr 180, fr 690)),
  ("Sr", (fr 0, fr 1000, fr 150)),
  ("Y", (fr 580, fr 1000, fr 1000)),
  ("Zr", (fr 580, fr 880, fr 880)),
  ("Nb", (fr 450, fr 760, fr 790)),
  ("Mo", (fr 330, fr 710, fr 710)),
  ("Tc", (fr 230, fr 620, fr 620)),
  ("Ru", (fr 140, fr 560, fr 560)),
  ("Rh", (fr 40, fr 490, fr 550)),
  ("Pd", (fr 0, fr 410, fr 520)),
  ("Ag", (fr 750, fr 750, fr 750)),
  ("Cd", (fr 1000, fr 850, fr 560)),
  ("In", (fr 650, fr 460, fr 450)),
  ("Sn", (fr 400, fr 500, fr 500)),
  ("Sb", (fr 620, fr 390, fr 710)),
  ("Te", (fr 830, fr 480, fr 0)),
  ("I", (fr 580, fr 0, fr 580)),
  ("Xe", (fr 260, fr 620, fr 690)),
  ("Cs", (fr 340, fr 90, fr 560)),
  ("Ba", (fr 0, fr 790, fr 0)),
  ("La", (fr 440, fr 830, fr 1000)),
  ("Ce", (fr 1000, fr 1000, fr 780)),
  ("Pr", (fr 850, fr 1000, fr 780)),
  ("Nd", (fr 780, fr 1000, fr 780)),
  ("Pm", (fr 640, fr 1000, fr 780)),
  ("Sm", (fr 560, fr 1000, fr 780)),
  ("Eu", (fr 380, fr 1000, fr 780)),
  ("Gd", (fr 270, fr 1000, fr 780)),
  ("Tb", (fr 190, fr 1000, fr 780)),
  ("Dy", (fr 120, fr 1000, fr 780)),
  ("Ho", (fr 0, fr 1000, fr 610)),
  ("Er", (fr 0, fr 900, fr 460)),
  ("Tm", (fr 0, fr 830, fr 320)),
  ("Yb", (fr 0, fr 750, fr 220)),
  ("Lu", (fr 0, fr 670, fr 140)),
  ("Hf", (fr 300, fr 760, fr 1000)),
  ("Ta", (fr 300, fr 650, fr 1000)),
  ("W", (fr 130, fr 580, fr 840)),
  ("Re", (fr 150, fr 490, fr 670)),
  ("Os", (fr 150, fr 400, fr 590)),
  ("Ir", (fr 90, fr 330, fr 530)),
  ("Pt", (fr 810, fr 820, fr 880)),
  ("Au", (fr 1000, fr 820, fr 140)),
  ("Hg", (fr 720, fr 720, fr 820)),
  ("Tl", (fr 650, fr 330, fr 300)),
  ("Pb", (fr 340, fr 350, fr 380)),
  ("Bi", (fr 620, fr 310, fr 710)),
  ("Po", (fr 670, fr 360, fr 0)),
  ("At", (fr 460, fr 310, fr 270)),
  ("Rn", (fr 260, fr 510, fr 590)),
  ("Fr", (fr 260, fr 0, fr 400)),
  ("Ra", (fr 0, fr 490, fr 0)),
  ("Ac", (fr 440, fr 670, fr 980)),
  ("Th", (fr 0, fr 730, fr 1000)),
  ("Pa", (fr 0, fr 630, fr 1000)),
  ("U", (fr 0, fr 560, fr 1000)),
  ("Np", (fr 0, fr 500, fr 1000)),
  ("Pu", (fr 0, fr 420, fr 1000)),
  ("Am", (fr 330, fr 360, fr 950)),
  ("Cm", (fr 470, fr 360, fr 890)),
  ("Bk", (fr 540, fr 310, fr 890)),
  ("Cf", (fr 630, fr 210, fr 830)),
  ("Es", (fr 700, fr 120, fr 830)),
  ("Fm", (fr 700, fr 120, fr 730)),
  ("Md", (fr 700, fr 50, fr 650)),
  ("No", (fr 740, fr 50, fr 530)),
  ("Lr", (fr 780, fr 0, fr 400))]

/-- Membership test against the keys of STANDARD_CPK_COLORS. -/
def isCpkKey (el : String) : Bool := cpkColors.any (fun p => p.1 == el)

/-- Key lookup in STANDARD_CPK_COLORS. -/
def cpkLookup (el : String) : Option Color :=
  (cpkColors.find? (fun p => p.1 == el)).map (fun p => p.2)

/-- The color matching tolerance (self.color_tolerance = 0.05). -/
def colorTolerance : Frac := (50, 1000)

/-- Squared Euclidean color distance.  The source compares the square root
of this quantity against the tolerance and the running minimum; both
comparands are nonnegative, so comparing squares is equivalent. -/
def colorDistSq (a b : Color) : Frac :=
  fAdd (fAdd (fMul (fSub a.1 b.1) (fSub a.1 b.1))
             (fMul (fSub a.2.1 b.2.1) (fSub a.2.1 b.2.1)))
       (fMul (fSub a.2.2 b.2.2) (fSub a.2.2 b.2.2))

/-- One iteration of the loop of MaterialStandardizer._match_element_by_color:
the accumulator is (min_distance, best_match), with none standing for the
initial infinite min_distance. -/
def matchColorStep (color : Color) (acc : Option Frac × Option String)
    (p : String × Color) : Option Frac × Option String :=
  let d := colorDistSq color p.2
  let beatsMin := match acc.1 with
    | none => true
    | some m => fLtb d m
  if beatsMin && fLtb d (fMul colorTolerance colorTolerance) then (some d, some p.1)
  else acc

/-- MaterialStandardizer._match_element_by_color: nearest CPK color within
the tolerance, else none. -/
def matchElementByColor (color : Color) : Option String :=
  (cpkColors.foldl (matchColorStep color) (none, none)).2

/-- Replace every non-overlapping occurrence of pat (scanning left to right),
with fuel bounding the recursion; mirrors the Python str.replace used by
MaterialStandardizer._extract_element_from_name.  An empty pattern is
returned unchanged (the source only uses nonempty patterns). -/
def pyReplaceFuel : Nat → List Char → List Char → List Char → List Char
  | 0, s, _, _ => s
  | fuel+1, s, pat, rep =>
    match s with
    | [] => []
    | c :: rest =>
      if pat ≠ [] ∧ pat.isPrefixOf (c :: rest) then
        rep ++ pyReplaceFuel fuel ((c :: rest).drop pat.length) pat rep
      else c :: pyReplaceFuel fuel rest pat rep

/-- String replace-all, as used by the standardizer. -/
def pyReplace (s pat rep : String) : String :=
  String.mk (pyReplaceFuel s.data.length s.data pat.data rep.data)

/-- Matcher for the trailing part of the element regex: zero or more sign
characters followed by end of string. -/
def signsOnly : List Char → Bool
  | [] => true
  | c :: rest => (c == '+' || c == '-') && signsOnly rest

/-- Matcher for the regex fragment that follows the element symbol: zero or
more ASCII digits, then zero or more plus or minus signs, then end. -/
def digitsSignsEnd (l : List Char) : Bool := signsOnly (l.dropWhile Char.isDigit)

/-- The element-symbol regex of _extract_element_from_name: one ASCII
uppercase letter, an optional ASCII lowercase letter, digits, signs, end;
returns the captured symbol.  Backtracking over the optional lowercase
letter can never help (a lowercase letter matches neither a digit nor a
sign), so this deterministic form is equivalent to the regex. -/
def elementSymbolMatch : List Char → Option String
  | [] => none
  | c :: rest =>
    if c.isUpper then
      match rest with
      | [] => some (String.mk [c])
      | d :: rest2 =>
        if d.isLower then
          if digitsSignsEnd rest2 then some (String.mk [c, d]) else none
        else if digitsSignsEnd rest then some (String.mk [c]) else none
    else none

/-- MaterialStandardizer._extract_element_from_name: strip the atom prefix
and the MAT suffix, match the element regex, and require the symbol to be a
key of STANDARD_CPK_COLORS. -/
def extractElementFromName (materialName : String) : Option String :=
  let name := pyReplace (pyReplace materialName "atom_" "") "_MAT" ""
  match elementSymbolMatch name.data with
  | some el => if isCpkKey el then some el else none
  | none => none

/-- Value of one hexadecimal digit. -/
def hexDigitVal (c : Char) : Option Nat :=
  if c.isDigit then some (c.toNat - 48)
  else if 'A' ≤ c ∧ c ≤ 'F' then some (c.toNat - 55)
  else if 'a' ≤ c ∧ c ≤ 'f' then some (c.toNat - 87)
  else none

/-- Decode a name of the Jmol hex form (an optional leading x and exactly
six hex digits) to a color with components value over 255; none when the
name does not have that form.  The leading x cannot itself be a hex digit,
so stripping it first is equivalent to the regex of _infer_from_hex_name. -/
def decodeHexName (s : String) : Option Color :=
  let l := match s.data with
    | 'x' :: rest => rest
    | other => other
  match l with
  | [h0, h1, h2, h3, h4, h5] =>
    match hexDigitVal h0, hexDigitVal h1, hexDigitVal h2,
          hexDigitVal h3, hexDigitVal h4, hexDigitVal h5 with
    | some a, some b, some c, some d, some e, some f =>
      some ((16 * a + b, 255), (16 * c + d, 255), (16 * e + f, 255))
    | _, _, _, _, _, _ => none
  | _ => none

/-- MaterialStandardizer._infer_from_hex_name. -/
def inferFromHexName (s : String) : Option String :=
  (decodeHexName s).bind matchElementByColor

/-- MaterialStandardizer._infer_element_from_material: tier 1 name pattern,
tier 2 color match, tier 3 hex-name decode.  The call site in
_analyze_materials re-checks table membership of the tier-1 result, which
_extract_element_from_name already guarantees. -/
def inferElementFromMaterial (materialName : String) (color : Color) : Option String :=
  match extractElementFromName materialName with
  | some el => some el
  | none =>
    match matchElementByColor color with
    | some el => some el
    | none => inferFromHexName materialName

/-- MaterialStandardizer._clean_element_symbol: drop digits, signs and
whitespace, then capitalize the first letter and lowercase the rest. -/
def cleanElementSymbol (element : String) : String :=
  let cl := element.data.filter
    (fun c => !(c.isDigit || c == '+' || c == '-' || c.isWhitespace))
  match cl with
  | [] => ""
  | c :: rest => String.mk (c.toUpper :: rest.map Char.toLower)

/-- MaterialStandardizer.get_standard_material_name. -/
def getStandardMaterialName (element : String) : String :=
  cleanElementSymbol element ++ "_MAT"

/-- Neutral fallback color (0.5, 0.5, 0.5). -/
def neutralColor : Color := (fr 500, fr 500, fr 500)

/-- MaterialStandardizer.get_standard_color. -/
def getStandardColor (element : String) : Color :=
  (cpkLookup (cleanElementSymbol element)).getD neutralColor

/-- One standardization mapping entry: old name, new name, final color. -/
abbrev MatMapping := List (String × String × Color)

/-- MaterialStandardizer._analyze_materials on the parsed material table:
materials whose element cannot be inferred produce no mapping entry. -/
def analyzeMaterials (preserve : Bool) (mtl : List (String × Color)) : MatMapping :=
  mtl.filterMap (fun p =>
    (inferElementFromMaterial p.1 p.2).map (fun el =>
      (p.1, getStandardMaterialName el, if preserve then p.2 else getStandardColor el)))

/-- Rounding of one component to six decimal places, the precision with
which _rewrite_mtl_file prints the Kd line that a later parse reads back. -/
def roundTo6 (a : Frac) : Frac :=
  (Int.fdiv (2 * a.1 * 1000000 + a.2) (2 * a.2), 1000000)

/-- Componentwise six-decimal rounding of a color. -/
def roundColor (c : Color) : Color := (roundTo6 c.1, roundTo6 c.2.1, roundTo6 c.2.2)

/-- Python-dict insertion on an association list: an existing key keeps its
position and takes the new value, a new key is appended. -/
def dictInsert (m : List (String × Color)) (k : String) (v : Color) :
    List (String × Color) :=
  if m.any (fun p => p.1 == k) then m.map (fun p => if p.1 == k then (k, v) else p)
  else m ++ [(k, v)]

/-- The dict that _parse_mtl_file builds from a sequence of newmtl/Kd
records: first occurrence fixes the position, last occurrence the value. -/
def dictOfList (l : List (String × Color)) : List (String × Color) :=
  l.foldl (fun m p => dictInsert m p.1 p.2) []

/-- The material table written by _rewrite_mtl_file, entry per mapping item,
as read back by a later parse (colors rounded to the six printed decimals,
duplicate names collapsed the way a dict parse collapses them). -/
def rewriteMtlTable (mapping : MatMapping) : List (String × Color) :=
  dictOfList (mapping.map (fun m => (m.2.1, roundColor m.2.2)))

/-- The usemtl references of the OBJ file after _update_obj_file. -/
def updateObjRefs (mapping : MatMapping) (refs : List String) : List String :=
  refs.map (fun r =>
    match mapping.find? (fun m => m.1 == r) with
    | some m => m.2.1
    | none => r)

/-- The material-relevant state of a mesh: ordered usemtl references of the
OBJ file and the parsed material table of the MTL file. -/
structure MeshMaterials where
  objRefs : List String
  mtl : List (String × Color)
deriving DecidableEq, Repr

/-- MaterialStandardizer.standardize_obj_materials at the material-table
level: analyze, and if anything was mapped, rewrite both files (an empty
mapping leaves the files untouched and still reports success). -/
def standardizeObjMaterials (preserve : Bool) (mesh : MeshMaterials) : MeshMaterials :=
  let mapping := analyzeMaterials preserve mesh.mtl
  if mapping.isEmpty then mesh
  else
    { objRefs := updateObjRefs mapping mesh.objRefs
      mtl := rewriteMtlTable mapping }

/-! ## Bond inference

ASEConverter.get_bonds (src/ase_converter.py) walks the neighbor lists the
ASE NeighborList returned and keeps only ordered pairs; the neighbor lists
themselves come from the external library and are a parameter here.
PymatgenConverter.get_bonds (src/pymatgen_converter.py) does the same over
CrystalNN neighbor info carrying a distance, with a per-atom exception
handler that skips the atom (modelled as the none case).
-/

/-- ASEConverter.get_bonds: for every atom index i below n, keep every
neighbor j with i strictly below j. -/
def aseGetBonds (n : Nat) (nn : Nat → List Nat) : List (Nat × Nat) :=
  (List.range n).flatMap (fun i =>
    ((nn i).filter (fun j => i < j)).map (fun j => (i, j)))

/-- PymatgenConverter.get_bonds: neighbor info per atom is a list of
(site index, bond distance); a per-atom exception (none) skips the atom. -/
def pmgGetBonds (n : Nat) (nnInfo : Nat → Option (List (Nat × Frac))) :
    List (Nat × Nat × Frac) :=
  (List.range n).flatMap (fun i =>
    match nnInfo i with
    | none => []
    | some neighbors =>
      (neighbors.filter (fun nb => i < nb.1)).map (fun nb => (i, nb.1, nb.2)))

/-! ## Sphere and cylinder tessellation

Both converters build UV spheres from the same latitude and longitude
formulas; they differ in the face lists.  ASEConverter.create_sphere_obj
skips one of the two quad triangles in each pole row, while
PymatgenConverter.create_sphere emits both triangles in every row.
Positions are modelled over the reals so that the exact pole identities
can be stated.
-/

/-- A point in three dimensional space. -/
abbrev V3 := ℝ × ℝ × ℝ

/-- Vertex of the UV sphere at latitude ring i and longitude slot j, as
computed by both create_sphere implementations. -/
noncomputable def sphereVertexPos (center : V3) (radius : ℝ) (res i j : ℕ) : V3 :=
  let lat : ℝ := Real.pi * (-(1/2) + (i : ℝ) / (res : ℝ))
  let lon : ℝ := 2 * Real.pi * (j : ℝ) / ((res : ℝ) * 2)
  (center.1 + radius * Real.cos lat * Real.cos lon,
   center.2.1 + radius * Real.cos lat * Real.sin lon,
   center.2.2 + radius * Real.sin lat)

/-- The vertex list of the UV sphere: res+1 latitude rings of res*2
longitude slots each, in row-major order. -/
noncomputable def sphereVertices (center : V3) (radius : ℝ) (res : ℕ) : List V3 :=
  (List.range (res + 1)).flatMap (fun i =>
    (List.range (res * 2)).map (fun j => sphereVertexPos center radius res i j))

/-- PymatgenConverter.create_sphere face list (zero-based indices): both
quad triangles are emitted for every ring, including the pole rings, and
the longitude seam index is not wrapped. -/
def pmgSphereFaces (res : ℕ) : List (ℕ × ℕ × ℕ) :=
  (List.range res).flatMap (fun i =>
    (List.range (res * 2)).flatMap (fun j =>
      let first := i * (res * 2) + j
      let second := first + res * 2
      [(first, second, first + 1), (second, second + 1, first + 1)]))

/-- ASEConverter.create_sphere_obj face list (one-based OBJ indices): the
first quad triangle is dropped on the bottom pole ring and the second on
the top pole ring, and the longitude seam wraps. -/
def aseSphereFaces (res : ℕ) : List (List ℕ) :=
  (List.range res).flatMap (fun i =>
    (List.range (res * 2)).flatMap (fun j =>
      let v1 := i * (res * 2) + j
      let v2 := i * (res * 2) + (j + 1) % (res * 2)
      let v3 := (i + 1) * (res * 2) + (j + 1) % (res * 2)
      let v4 := (i + 1) * (res * 2) + j
      (if 0 < i then [[v1 + 1, v2 + 1, v4 + 1]] else []) ++
      (if i < res - 1 then [[v2 + 1, v3 + 1, v4 + 1]] else [])))

/-- Vector difference. -/
def vSub (a b : V3) : V3 := (a.1 - b.1, a.2.1 - b.2.1, a.2.2 - b.2.2)

/-- Vector sum. -/
def vAdd (a b : V3) : V3 := (a.1 + b.1, a.2.1 + b.2.1, a.2.2 + b.2.2)

/-- Scalar multiple. -/
def vSmul (s : ℝ) (a : V3) : V3 := (s * a.1, s * a.2.1, s * a.2.2)

/-- Cross product, as numpy computes it. -/
def vCross (a b : V3) : V3 :=
  (a.2.1 * b.2.2 - a.2.2 * b.2.1,
   a.2.2 * b.1 - a.1 * b.2.2,
   a.1 * b.2.1 - a.2.1 * b.1)

/-- Euclidean norm. -/
noncomputable def vNorm (a : V3) : ℝ :=
  Real.sqrt (a.1 ^ 2 + a.2.1 ^ 2 + a.2.2 ^ 2)

section CylinderGeometry

open Classical

/-- ASEConverter.create_cylinder_obj: a zero-length axis returns no
geometry; otherwise the vertex ring is built from two orthogonal vectors
chosen by the near-axis test on the z component.  The pymatgen
create_cylinder is the same construction with its own resolution and
differently grouped faces; the claims only touch the zero-length guard,
shared by both. -/
noncomputable def aseCreateCylinder (start stop : V3) (radius : ℝ) (res : ℕ) :
    List V3 × List (List ℕ) :=
  let dirRaw := vSub stop start
  let length := vNorm dirRaw
  if length = 0 then ([], [])
  else
    let direction := vSmul (1 / length) dirRaw
    let perpRaw :=
      if |direction.2.2| < 0.9 then vCross direction (0, 0, 1)
      else vCross direction (1, 0, 0)
    let p1 := vSmul (1 / vNorm perpRaw) perpRaw
    let p2 := vCross direction p1
    let verts := (List.range res).flatMap (fun i =>
      let angle : ℝ := 2 * Real.pi * (i : ℝ) / (res : ℝ)
      let offset := vSmul radius
        (vAdd (vSmul (Real.cos angle) p1) (vSmul (Real.sin angle) p2))
      [vAdd start offset, vAdd stop offset])
    let faces := (List.range res).flatMap (fun i =>
      let nexti := (i + 1) % res
      let v1 := i * 2 + 1
      let v2 := i * 2 + 2
      let v3 := nexti * 2 + 2
      let v4 := nexti * 2 + 1
      [[v1, v2, v4], [v2, v3, v4]])
    (verts, faces)

end CylinderGeometry

/-- One atom as ASEConverter.convert_to_obj consumes it: a cartesian
position from atoms.get_positions and the covalent radius of its element. -/
structure AseAtom where
  pos : V3
  covalentRadius : ℝ

/-- Geometry accumulated by ASEConverter.convert_to_obj together with its
return flag (the source returns True whenever no exception escaped the
geometry and file writes; the file writes are outside this model). -/
structure AseObjModel where
  success : Bool
  vertices : List V3
  faces : List (List ℕ)

/-- Shift one-based face indices by the running vertex offset. -/
def offsetFaces (off : ℕ) (faces : List (List ℕ)) : List (List ℕ) :=
  faces.map (fun f => f.map (fun v => v + off))

/-- The atom-sphere pass of ASEConverter.convert_to_obj: positions are
scaled by scale_factor, the sphere radius is the covalent radius times 0.5
times scale_factor, faces carry the running vertex offset. -/
noncomputable def aseAtomPass (atoms : List AseAtom) (scale : ℝ) (sphereRes : ℕ) :
    List V3 × List (List ℕ) :=
  atoms.foldl (fun acc a =>
    let verts := sphereVertices (vSmul scale a.pos)
      (a.covalentRadius * (1/2) * scale) sphereRes
    (acc.1 ++ verts, acc.2 ++ offsetFaces acc.1.length (aseSphereFaces sphereRes)))
    ([], [])

/-- The bond-cylinder pass of ASEConverter.convert_to_obj: cylinders of
radius 0.1 times scale_factor between the scaled endpoint positions
(bonds reference atom indices; the source obtains them from get_bonds, so
they are in range there). -/
noncomputable def aseBondPass (atoms : List AseAtom) (bonds : List (ℕ × ℕ))
    (scale : ℝ) (bondRes : ℕ) (start : List V3 × List (List ℕ)) :
    List V3 × List (List ℕ) :=
  bonds.foldl (fun acc b =>
    match atoms.get? b.1, atoms.get? b.2 with
    | some ai, some aj =>
      let cyl := aseCreateCylinder (vSmul scale ai.pos) (vSmul scale aj.pos)
        ((1/10) * scale) bondRes
      (acc.1 ++ cyl.1, acc.2 ++ offsetFaces acc.1.length cyl.2)
    | _, _ => acc) start

/-- ASEConverter.convert_to_obj, geometric core: atom spheres, then bond
cylinders when include_bonds is set.  No validation of scale_factor is
performed anywhere on this path. -/
noncomputable def aseConvertToObj (atoms : List AseAtom) (bonds : List (ℕ × ℕ))
    (includeBonds : Bool) (scale : ℝ) (sphereRes bondRes : ℕ) : AseObjModel :=
  let ap := aseAtomPass atoms scale sphereRes
  let g := if includeBonds then aseBondPass atoms bonds scale bondRes ap else ap
  { success := true, vertices := g.1, faces := g.2 }

/-! ## ReliableCIFConverter (src/converter/reliable_cif_converter.py)

The converter loop of convert_cif_to_obj: each configured backend is tried
in order inside a try/except; an exception appends a warning and moves on,
a False return moves on silently, the first True return wins.  The
per-backend work (_try_pymatgen, _try_ase, _try_builtin) is a parameter,
summarized by whether it raised, returned False, or returned True.
-/

/-- Outcome of one _try_converter call. -/
inductive TryOutcome where
  | raises (msg : String)
  | fails
  | succeeds
deriving DecidableEq, Repr

/-- The result dict of ReliableCIFConverter.convert_cif_to_obj, restricted
to the fields the claims mention (the geometry statistics are dropped). -/
structure ReliableResult where
  success : Bool
  converterUsed : Option String
  error : Option String
  warnings : List String
deriving DecidableEq, Repr

/-- The static default priority order of the converter dict. -/
def reliableDefaultOrder : List String := ["pymatgen", "ase", "builtin"]

/-- ReliableCIFConverter._get_converter_order. -/
def getConverterOrder (available : List String) (preferred : Option String) :
    List String :=
  match preferred with
  | some p =>
    if available.contains p then
      p :: reliableDefaultOrder.filter (fun c => c != p && available.contains c)
    else reliableDefaultOrder.filter (fun c => available.contains c)
  | none => reliableDefaultOrder.filter (fun c => available.contains c)

/-- The Blender import hints appended on success of the two library
backends (quoted text from the source paraphrased without quote marks). -/
def blenderHints : List String :=
  ["建议在Blender中导入时选择Keep Vert Order选项", "如果原子显示不完整请检查材质设置"]

/-- The backend loop of convert_cif_to_obj. -/
def reliableLoop (beh : String → TryOutcome) (available : List String) :
    List String → ReliableResult → ReliableResult
  | [], r => { r with error := some "所有可用的转换器都失败了" }
  | name :: rest, r =>
    if available.contains name then
      match beh name with
      | .raises msg =>
        reliableLoop beh available rest
          { r with warnings := r.warnings ++ [name ++ " 转换器失败: " ++ msg] }
      | .fails => reliableLoop beh available rest r
      | .succeeds =>
        let r1 := { r with success := true, converterUsed := some name }
        if name == "pymatgen" || name == "ase" then
          { r1 with warnings := r1.warnings ++ blenderHints }
        else r1
    else reliableLoop beh available rest r

/-- ReliableCIFConverter.convert_cif_to_obj: missing input fails before the
loop; otherwise the backends run in the computed order starting from the
all-empty result dict. -/
def reliableConvertCifToObj (beh : String → TryOutcome) (available : List String)
    (inputExists : Bool) (preferred : Option String) : ReliableResult :=
  let r0 : ReliableResult :=
    { success := false, converterUsed := none, error := none, warnings := [] }
  if inputExists then
    reliableLoop beh available (getConverterOrder available preferred) r0
  else { r0 with error := some "CIF文件不存在" }

/-! ## The USDZ packaging loop (CIFToUSDZConverter._convert_obj_to_usdz)

Each backend call is summarized by: whether the key is configured in
self.usdz_converters, what its availability check does, whether it has the
conversion method, whether the call raises or what normalized
success/message it returns (the source normalizes tuple, dict and plain
returns into exactly that), and the state of the output file after the
call.
-/

/-- Behavior of the is_available check of one backend. -/
inductive AvailCheck where
  | noMethod
  | returns (b : Bool)
  | raises (msg : String)
deriving DecidableEq, Repr

/-- Behavior of one conversion call. -/
inductive ConvCall where
  | raises (msg : String)
  | returns (success : Bool) (msg : String)
deriving DecidableEq, Repr

/-- One packaging backend as the attempt loop observes it. -/
structure UsdzBackend where
  avail : AvailCheck
  hasMethod : Bool
  call : ConvCall
  outExists : Bool
  outSize : ℕ
deriving DecidableEq, Repr

/-- One entry of the conversion_attempts diagnostic list. -/
structure UsdzAttempt where
  converter : String
  success : Bool
  message : String
  errorType : Option String
deriving DecidableEq, Repr

/-- The fixed priority list (display name, dict key): Pixar USD first,
Apple USD second, Docker USD third. -/
def usdzPriority : List (String × String) :=
  [("Pixar USD", "pixar_usd"), ("Apple USD", "apple_usd"), ("Docker USD", "docker_usd")]

/-- The value of _convert_obj_to_usdz. -/
structure UsdzResult where
  success : Bool
  message : String
  attempts : List UsdzAttempt
  winner : Option String
deriving DecidableEq, Repr

/-- The attempt loop of _convert_obj_to_usdz over the remaining priority
list, carrying the conversion_attempts accumulated so far. -/
def usdzLoop (keys : List String) (env : String → UsdzBackend) :
    List (String × String) → List UsdzAttempt → UsdzResult
  | [], attempts =>
    let failed := (attempts.filter (fun a => !a.success)).map (fun a => a.converter)
    { success := false
      message := "所有USDZ转换器都失败了: " ++ String.intercalate ", " failed
      attempts := attempts
      winner := none }
  | (name, key) :: rest, attempts =>
    if key ∈ keys then
      let b := env key
      match b.avail with
      | .returns false =>
        usdzLoop keys env rest
          (attempts ++ [⟨name, false, "转换器不可用", some "unavailable"⟩])
      | _ =>
        if b.hasMethod then
          match b.call with
          | .raises m =>
            usdzLoop keys env rest
              (attempts ++ [⟨name, false, name ++ "转换器执行异常: " ++ m, some "exception"⟩])
          | .returns s m =>
            let attempts2 :=
              attempts ++ [⟨name, s, m, if s then none else some "conversion_failed"⟩]
            if s && b.outExists then
              { success := true, message := name ++ "转换成功",
                attempts := attempts2, winner := some key }
            else usdzLoop keys env rest attempts2
        else
          usdzLoop keys env rest
            (attempts ++ [⟨name, false, "转换器不支持convert_obj_to_usdz方法",
                           some "method_not_supported"⟩])
    else
      usdzLoop keys env rest
        (attempts ++ [⟨name, false, "转换器未配置", some "not_configured"⟩])

/-- CIFToUSDZConverter._convert_obj_to_usdz. -/
def convertObjToUsdz (keys : List String) (env : String → UsdzBackend) : UsdzResult :=
  usdzLoop keys env usdzPriority []

/-- A backend wins the attempt loop when it is configured, its availability
check does not report False, the method exists, the call reports success,
and the output file exists afterwards.  The source never consults the
output file size here. -/
def backendWins (keys : List String) (env : String → UsdzBackend)
    (p : String × String) : Bool :=
  decide (p.2 ∈ keys) &&
  (match (env p.2).avail with | .returns false => false | _ => true) &&
  (env p.2).hasMethod &&
  (match (env p.2).call with | .returns s _ => s | .raises _ => false) &&
  (env p.2).outExists

/-! ## The orchestrator (CIFToUSDZConverter.convert_cif_to_usdz)

The three guard clauses return (False, message, empty dict) before the
scratch directory is created.  Inside the try block the only call not
individually wrapped is tempfile.mkdtemp; _convert_cif_to_obj and
_convert_obj_to_usdz both catch internally.  The finally clause is a pass:
the scratch directory is never removed here.
-/

/-- One entry of the steps list of conversion_info. -/
structure ConvStep where
  step : String
  success : Bool
  message : String
deriving DecidableEq, Repr

/-- The details dict of convert_cif_to_usdz: the guard clauses return the
literal empty dict, every later path a populated report. -/
inductive ConvInfo where
  | empty
  | report (steps : List ConvStep) (usdzAttempts : List UsdzAttempt)
      (errorMsg : Option String) (outputSize : Option ℕ)
deriving DecidableEq, Repr

/-- Display names of the packaging attempts recorded in the details. -/
def ConvInfo.attemptNames : ConvInfo → List String
  | .empty => []
  | .report _ atts _ _ => atts.map (fun a => a.converter)

/-- Environment of one convert_cif_to_usdz call: the observable behavior
of every external call site. -/
structure OrchEnv where
  inputExists : Bool
  cifConverters : List String
  usdzKeys : List String
  usdz : String → UsdzBackend
  mkdtempExc : Option String
  cifHasMethod : Bool
  cifCall : ConvCall
  finalOutputExists : Bool
  finalOutputSize : ℕ

/-- The outcome of convert_cif_to_usdz together with the scratch-directory
state: whether the directory was created, and whether it still exists when
the call returns (the finally clause of the source is a pass, cleanup is
left to _cleanup_temp_dir). -/
structure ConvOutcome where
  ok : Bool
  message : String
  info : ConvInfo
  tempDirCreated : Bool
  tempDirExistsAfter : Bool
deriving DecidableEq, Repr

/-- CIFToUSDZConverter._convert_cif_to_obj: the reliable converter call is
wrapped in its own try/except, so this step never raises. -/
def orchCifStep (env : OrchEnv) : Bool × String :=
  if env.cifHasMethod then
    match env.cifCall with
    | .raises e => (false, "CIF转换器 reliable 执行失败: " ++ e)
    | .returns s m => (s, m)
  else (false, "转换器 reliable 不支持convert_cif_to_obj方法")

/-- CIFToUSDZConverter.convert_cif_to_usdz. -/
def convertCifToUsdz (env : OrchEnv) : ConvOutcome :=
  if !env.inputExists then
    ⟨false, "CIF文件不存在", .empty, false, false⟩
  else if env.cifConverters.isEmpty then
    ⟨false, "没有可用的CIF转换器", .empty, false, false⟩
  else if env.usdzKeys.isEmpty then
    ⟨false, "没有可用的USDZ转换器", .empty, false, false⟩
  else
    match env.mkdtempExc with
    | some e =>
      ⟨false, "转换过程中发生错误: " ++ e,
       .report [] [] (some ("转换过程中发生错误: " ++ e)) none, false, false⟩
    | none =>
      let cs := orchCifStep env
      let steps1 := [ConvStep.mk "cif_to_obj" cs.1 cs.2]
      if !cs.1 then
        ⟨false, "CIF转换失败: " ++ cs.2, .report steps1 [] none none, true, true⟩
      else
        let ur := convertObjToUsdz env.usdzKeys env.usdz
        let steps2 := steps1 ++ [ConvStep.mk "obj_to_usdz" ur.success ur.message]
        if !ur.success then
          ⟨false, "USDZ转换失败: " ++ ur.message,
           .report steps2 ur.attempts none none, true, true⟩
        else if env.finalOutputExists then
          ⟨true, "转换成功完成",
           .report steps2 ur.attempts none (some env.finalOutputSize), true, true⟩
        else
          ⟨false, "输出文件未生成", .report steps2 ur.attempts none none, true, true⟩

/-- CIFToUSDZConverter._cleanup_temp_dir: removes the scratch directory
when one is recorded; the temp_dir field is cleared even when rmtree
fails. -/
def cleanupTempDir (_tempDirExists : Bool) : Bool := false

/-! ## Concrete instances used by the closed theorems below -/

/-- A mesh with one standardizable material (the builtin atom_Na form) and
one material (black, name not element-like, not hex) that no inference
tier resolves. -/
def meshNaUnknown : MeshMaterials :=
  { objRefs := ["atom_Na", "unknown1"]
    mtl := [("atom_Na", (fr 670, fr 360, fr 950)), ("unknown1", ((0, 1), (0, 1), (0, 1)))] }

/-- The three packaging keys as initialized when every backend loaded. -/
def allUsdzKeys : List String := ["pixar_usd", "apple_usd", "docker_usd"]

/-- A backend that is reachable but loses: available, method present, call
reports failure, no output file. -/
def losingBackend : UsdzBackend :=
  { avail := .noMethod, hasMethod := true, call := .returns false "转换失败", outExists := false, outSize := 0 }

/-- Environment for the size check: Pixar reports success and the output
file exists but is empty (zero bytes); the others lose. -/
def pixarEmptyFileEnv : String → UsdzBackend := fun k =>
  if k == "pixar_usd" then
    { avail := .noMethod, hasMethod := true, call := .returns true "转换完成", outExists := true, outSize := 0 }
  else losingBackend

/-- Environment where Pixar fails and Apple wins with a nonempty file. -/
def appleWinsEnv : String → UsdzBackend := fun k =>
  if k == "apple_usd" then
    { avail := .returns true, hasMethod := true, call := .returns true "转换完成", outExists := true, outSize := 2048 }
  else losingBackend

/-- A fully successful conversion environment for the orchestrator. -/
def okOrchEnv : OrchEnv :=
  { inputExists := true
    cifConverters := ["reliable"]
    usdzKeys := allUsdzKeys
    usdz := appleWinsEnv
    mkdtempExc := none
    cifHasMethod := true
    cifCall := .returns true "转换成功"
    finalOutputExists := true
    finalOutputSize := 2048 }

/-- An orchestrator environment whose input path does not exist. -/
def missingInputEnv : OrchEnv :=
  { okOrchEnv with inputExists := false }

/-- An orchestrator environment where creating the scratch directory
raises. -/
def mkdtempFailEnv : OrchEnv :=
  { okOrchEnv with mkdtempExc := some "disk full" }

/-- A duplicate-free neighbor function for three atoms. -/
def nnWitness : Nat → List Nat := fun _ => [1, 2]

/-- A duplicate-free CrystalNN neighbor-info function for three atoms. -/
def pnWitness : Nat → Option (List (Nat × Frac)) := fun _ => some [(1, (23, 10)), (2, (29, 10))]

/-- An environment whose first packaging backend raises. -/
def raisingPixarEnv : OrchEnv :=
  { okOrchEnv with usdz := fun k =>
      if k == "pixar_usd" then
        { avail := .noMethod, hasMethod := true, call := .raises "kaboom", outExists := false, outSize := 0 }
      else appleWinsEnv k }

/-- Neighbor lists as ASE NeighborList returns them for a periodic pair
bonded through two periodic images: get_neighbors lists the neighbor index
once per image, and get_bonds discards the offsets without deduplicating. -/
def nnDuplicated : Nat → List Nat := fun _ => [1, 1]

/-- CrystalNN neighbor info with one entry per coordinated periodic image
sharing the same site index, as get_nn_info yields for periodic crystals. -/
def pnDuplicated : Nat → Option (List (Nat × Frac)) := fun _ => some [(1, (5, 2)), (1, (5, 2))]

/-- Shape of every entry of a rewritten MTL table: a canonical MAT name of
a table element, with a six-decimal rounded color that equals the standard
color of that element whenever colors are not preserved. -/
def GoodEntry (preserve : Bool) (e : String × Color) : Prop :=
  ∃ el c, isCpkKey el = true ∧ e.1 = el ++ "_MAT" ∧ e.2 = roundColor c ∧
    (preserve = false → c = getStandardColor el)

/-! # Theorems -/

/-- A non-winning backend at the head of the priority list contributes one
recorded attempt carrying its display name and the loop moves on. -/
theorem usdzLoop_cons_not_winning (keys : List String) (env : String → UsdzBackend)
    (p : String × String) (t : List (String × String)) (acc : List UsdzAttempt)
    (h : backendWins keys env p = false) :
    ∃ att : UsdzAttempt, att.converter = p.1 ∧
      usdzLoop keys env (p :: t) acc = usdzLoop keys env t (acc ++ [att]) := by
  obtain ⟨name, key⟩ := p
  by_cases hk : key ∈ keys
  · cases hav : (env key).avail with
    | returns b =>
      cases b with
      | false =>
        exact ⟨⟨name, false, "转换器不可用", some "unavailable"⟩, rfl, by
          simp [usdzLoop, hk, hav]⟩
      | true =>
        by_cases hm : (env key).hasMethod
        · cases hc : (env key).call with
          | raises m =>
            exact ⟨⟨name, false, name ++ "转换器执行异常: " ++ m, some "exception"⟩, rfl, by
              simp [usdzLoop, hk, hav, hm, hc]⟩
          | returns s m =>
            have hs : (s && (env key).outExists) = false := by
              simp only [backendWins, hk, hav, hm, hc] at h
              simpa using h
            exact ⟨⟨name, s, m, if s then none else some "conversion_failed"⟩, rfl, by
              simp [usdzLoop, hk, hav, hm, hc, hs]⟩
        · exact ⟨⟨name, false, "转换器不支持convert_obj_to_usdz方法", some "method_not_supported"⟩,
            rfl, by simp [usdzLoop, hk, hav, hm]⟩
    | noMethod =>
      by_cases hm : (env key).hasMethod
      · cases hc : (env key).call with
        | raises m =>
          exact ⟨⟨name, false, name ++ "转换器执行异常: " ++ m, some "exception"⟩, rfl, by
            simp [usdzLoop, hk, hav, hm, hc]⟩
        | returns s m =>
          have hs : (s && (env key).outExists) = false := by
            simp only [backendWins, hk, hav, hm, hc] at h
            simpa using h
          exact ⟨⟨name, s, m, if s then none else some "conversion_failed"⟩, rfl, by
            simp [usdzLoop, hk, hav, hm, hc, hs]⟩
      · exact ⟨⟨name, false, "转换器不支持convert_obj_to_usdz方法", some "method_not_supported"⟩,
          rfl, by simp [usdzLoop, hk, hav, hm]⟩
    | raises msg =>
      by_cases hm : (env key).hasMethod
      · cases hc : (env key).call with
        | raises m =>
          exact ⟨⟨name, false, name ++ "转换器执行异常: " ++ m, some "exception"⟩, rfl, by
            simp [usdzLoop, hk, hav, hm, hc]⟩
        | returns s m =>
          have hs : (s && (env key).outExists) = false := by
            simp only [backendWins, hk, hav, hm, hc] at h
            simpa using h
          exact ⟨⟨name, s, m, if s then none else some "conversion_failed"⟩, rfl, by
            simp [usdzLoop, hk, hav, hm, hc, hs]⟩
      · exact ⟨⟨name, false, "转换器不支持convert_obj_to_usdz方法", some "method_not_supported"⟩,
          rfl, by simp [usdzLoop, hk, hav, hm]⟩
  · exact ⟨⟨name, false, "转换器未配置", some "not_configured"⟩, rfl, by
      simp [usdzLoop, hk]⟩

/-- A winning backend at the head of the priority list stops the loop with
success, its display name recorded last and its key as the winner. -/
theorem usdzLoop_cons_winning (keys : List String) (env : String → UsdzBackend)
    (p : String × String) (t : List (String × String)) (acc : List UsdzAttempt)
    (h : backendWins keys env p = true) :
    ∃ m, usdzLoop keys env (p :: t) acc =
      { success := true, message := p.1 ++ "转换成功",
        attempts := acc ++ [⟨p.1, true, m, none⟩], winner := some p.2 } := by
  obtain ⟨name, key⟩ := p
  simp only [backendWins, Bool.and_eq_true] at h
  obtain ⟨⟨⟨⟨hk, hav⟩, hm⟩, hc⟩, ho⟩ := h
  have hk2 : key ∈ keys := of_decide_eq_true hk
  cases hcall : (env key).call with
  | raises msg => rw [hcall] at hc; simp at hc
  | returns s msg =>
    rw [hcall] at hc
    have hs : s = true := hc
    subst hs
    refine ⟨msg, ?_⟩
    cases havv : (env key).avail with
    | returns b =>
      cases b with
      | false => rw [havv] at hav; simp at hav
      | true => simp [usdzLoop, hk2, havv, hm, hcall, ho]
    | noMethod => simp [usdzLoop, hk2, havv, hm, hcall, ho]
    | raises m2 => simp [usdzLoop, hk2, havv, hm, hcall, ho]

/-- The loop succeeds exactly when some remaining backend wins. -/
theorem usdzLoop_success_any (keys : List String) (env : String → UsdzBackend) :
    ∀ (l : List (String × String)) (acc : List UsdzAttempt),
      (usdzLoop keys env l acc).success = l.any (backendWins keys env) := by
  intro l
  induction l with
  | nil => intro acc; simp [usdzLoop]
  | cons p t ih =>
    intro acc
    cases hw : backendWins keys env p with
    | false =>
      obtain ⟨att, -, he⟩ := usdzLoop_cons_not_winning keys env p t acc hw
      rw [he, ih, List.any_cons, hw, Bool.false_or]
    | true =>
      obtain ⟨m, he⟩ := usdzLoop_cons_winning keys env p t acc hw
      rw [he, List.any_cons, hw, Bool.true_or]

/-- When the loop is exhausted, the recorded attempts cover every remaining
backend in order. -/
theorem usdzLoop_failure_attempts (keys : List String) (env : String → UsdzBackend) :
    ∀ (l : List (String × String)) (acc : List UsdzAttempt),
      (usdzLoop keys env l acc).success = false →
      (usdzLoop keys env l acc).attempts.map (fun a => a.converter) =
        acc.map (fun a => a.converter) ++ l.map Prod.fst := by
  intro l
  induction l with
  | nil => intro acc _; simp [usdzLoop]
  | cons p t ih =>
    intro acc hfail
    cases hw : backendWins keys env p with
    | false =>
      obtain ⟨att, hattc, he⟩ := usdzLoop_cons_not_winning keys env p t acc hw
      rw [he] at hfail ⊢
      rw [ih _ hfail]
      simp [hattc]
    | true =>
      obtain ⟨m, he⟩ := usdzLoop_cons_winning keys env p t acc hw
      rw [he] at hfail
      simp at hfail

/-- The attempt names recorded by the loop always extend the accumulator by
a prefix of the remaining backend names, in order. -/
theorem usdzLoop_attempts_take (keys : List String) (env : String → UsdzBackend) :
    ∀ (l : List (String × String)) (acc : List UsdzAttempt),
      ∃ k, (usdzLoop keys env l acc).attempts.map (fun a => a.converter) =
        acc.map (fun a => a.converter) ++ (l.map Prod.fst).take k := by
  intro l
  induction l with
  | nil => exact fun acc => ⟨0, by simp [usdzLoop]⟩
  | cons p t ih =>
    intro acc
    cases hw : backendWins keys env p with
    | false =>
      obtain ⟨att, hattc, he⟩ := usdzLoop_cons_not_winning keys env p t acc hw
      obtain ⟨k, hk⟩ := ih (acc ++ [att])
      exact ⟨k + 1, by rw [he, hk]; simp [hattc]⟩
    | true =>
      obtain ⟨m, he⟩ := usdzLoop_cons_winning keys env p t acc hw
      exact ⟨1, by rw [he]; simp⟩

/-- The first winning backend determines the winner, and the loop stops
right after recording it. -/
theorem usdzLoop_first_winner (keys : List String) (env : String → UsdzBackend) :
    ∀ (pre : List (String × String)) (p : String × String)
      (post : List (String × String)) (acc : List UsdzAttempt),
      (∀ q ∈ pre, backendWins keys env q = false) → backendWins keys env p = true →
      (usdzLoop keys env (pre ++ p :: post) acc).winner = some p.2 ∧
      (usdzLoop keys env (pre ++ p :: post) acc).attempts.map (fun a => a.converter) =
        acc.map (fun a => a.converter) ++ (pre ++ [p]).map Prod.fst := by
  intro pre
  induction pre with
  | nil =>
    intro p post acc _ hp
    obtain ⟨m, he⟩ := usdzLoop_cons_winning keys env p post acc hp
    rw [List.nil_append, he]
    simp
  | cons q t ih =>
    intro p post acc hpre hp
    have hq : backendWins keys env q = false := hpre q (List.mem_cons_self q t)
    obtain ⟨att, hattc, he⟩ := usdzLoop_cons_not_winning keys env q (t ++ p :: post) acc hq
    rw [List.cons_append, he]
    obtain ⟨h1, h2⟩ := ih p post (acc ++ [att])
      (fun r hr => hpre r (List.mem_cons_of_mem q hr)) hp
    refine ⟨h1, ?_⟩
    rw [h2]
    simp [hattc]

/-- C1: the packaging backends run strictly in the Pixar, Apple, Docker
priority order; an exception or reported failure is recorded and the next
backend is tried; the loop stops at the first backend that reports success
and whose output file exists (the amended success condition: the source
checks os.path.exists only and never the file size); exhaustion yields a
failure recording every backend in order. -/
theorem usdz_priority_fallback (keys : List String) (env : String → UsdzBackend) :
    ((convertObjToUsdz keys env).success = usdzPriority.any (backendWins keys env))
    ∧ ((convertObjToUsdz keys env).success = false →
        (convertObjToUsdz keys env).attempts.map (fun a => a.converter) =
          usdzPriority.map Prod.fst)
    ∧ (∀ pre p post, usdzPriority = pre ++ p :: post →
        (∀ q ∈ pre, backendWins keys env q = false) → backendWins keys env p = true →
        (convertObjToUsdz keys env).winner = some p.2 ∧
        (convertObjToUsdz keys env).attempts.map (fun a => a.converter) =
          (pre ++ [p]).map Prod.fst) := by
  refine ⟨usdzLoop_success_any keys env usdzPriority [], ?_, ?_⟩
  · intro hfail
    have := usdzLoop_failure_attempts keys env usdzPriority [] hfail
    simpa [convertObjToUsdz] using this
  · intro pre p post hsplit hpre hp
    have := usdzLoop_first_winner keys env pre p post [] hpre hp
    rw [← hsplit] at this
    simpa [convertObjToUsdz] using this

/-- C1 counterexample: a first backend that reports success and leaves an
existing but zero-byte output file wins the loop, although no backend
produced an output that exists with non-zero size. -/
theorem usdz_empty_output_wins :
    (convertObjToUsdz allUsdzKeys pixarEmptyFileEnv).success = true ∧
    (convertObjToUsdz allUsdzKeys pixarEmptyFileEnv).winner = some "pixar_usd" ∧
    (pixarEmptyFileEnv "pixar_usd").outExists = true ∧
    (pixarEmptyFileEnv "pixar_usd").outSize = 0 ∧
    (∀ p ∈ usdzPriority,
      ¬((pixarEmptyFileEnv p.2).outExists = true ∧ 0 < (pixarEmptyFileEnv p.2).outSize)) := by
  decide

/-- C1 witness: with Pixar losing and Apple winning, the loop falls through
to Apple, records both attempts in order and stops there. -/
theorem usdz_priority_fallback_witness :
    (convertObjToUsdz allUsdzKeys appleWinsEnv).winner = some "apple_usd" ∧
    (convertObjToUsdz allUsdzKeys appleWinsEnv).attempts.map (fun a => a.converter) =
      ([("Pixar USD", "pixar_usd")] ++ [("Apple USD", "apple_usd")]).map Prod.fst :=
  (usdz_priority_fallback allUsdzKeys appleWinsEnv).2.2
    [("Pixar USD", "pixar_usd")] ("Apple USD", "apple_usd") [("Docker USD", "docker_usd")]
    (by decide) (by decide) (by decide)

/-- C10: a missing input file, an empty CIF-converter table or an empty
USDZ-converter table makes convert_cif_to_usdz return a failure with the
literal empty details dict before the scratch directory is created and
before any backend runs. -/
theorem convert_guard_early_return (env : OrchEnv)
    (h : env.inputExists = false ∨ env.cifConverters = [] ∨ env.usdzKeys = []) :
    (convertCifToUsdz env).ok = false ∧
    (convertCifToUsdz env).info = ConvInfo.empty ∧
    (convertCifToUsdz env).tempDirCreated = false ∧
    (convertCifToUsdz env).tempDirExistsAfter = false := by
  unfold convertCifToUsdz
  rcases h with h | h | h
  · simp [h]
  · rw [h]
    by_cases hi : env.inputExists <;> simp [hi]
  · rw [h]
    by_cases hi : env.inputExists
    · by_cases hc : env.cifConverters.isEmpty <;> simp [hi, hc]
    · simp [hi]

/-- C10 witness: the guard fires for a missing input file. -/
theorem convert_guard_early_return_witness :
    (convertCifToUsdz missingInputEnv).ok = false ∧
    (convertCifToUsdz missingInputEnv).info = ConvInfo.empty ∧
    (convertCifToUsdz missingInputEnv).tempDirCreated = false ∧
    (convertCifToUsdz missingInputEnv).tempDirExistsAfter = false :=
  convert_guard_early_return missingInputEnv (Or.inl rfl)

/-- C2 (amended): once the guards pass and mkdtemp succeeds, the scratch
directory is created and still exists on every exit path of
convert_cif_to_usdz (the finally clause of the source is a pass); removal
happens only through the separate _cleanup_temp_dir, which the API caller
or the destructor invokes. -/
theorem convert_scratch_not_removed (env : OrchEnv)
    (h1 : env.inputExists = true) (h2 : ¬env.cifConverters = [])
    (h3 : ¬env.usdzKeys = []) (h4 : env.mkdtempExc = none) :
    (convertCifToUsdz env).tempDirCreated = true ∧
    (convertCifToUsdz env).tempDirExistsAfter = true ∧
    cleanupTempDir (convertCifToUsdz env).tempDirExistsAfter = false := by
  have hc : env.cifConverters.isEmpty = false := by simpa [List.isEmpty_iff] using h2
  have hu : env.usdzKeys.isEmpty = false := by simpa [List.isEmpty_iff] using h3
  unfold convertCifToUsdz
  rw [h1, h4, hc, hu]
  simp only [Bool.not_true, Bool.false_eq_true, if_false, cleanupTempDir]
  split
  · exact ⟨rfl, rfl, trivial⟩
  · split
    · exact ⟨rfl, rfl, trivial⟩
    · split <;> exact ⟨rfl, rfl, trivial⟩

/-- C2 counterexample: a fully successful conversion returns with the
scratch directory still existing, contrary to the claim that it is removed
on every exit path of the call. -/
theorem convert_scratch_persists_cex :
    (convertCifToUsdz okOrchEnv).ok = true ∧
    (convertCifToUsdz okOrchEnv).tempDirCreated = true ∧
    (convertCifToUsdz okOrchEnv).tempDirExistsAfter = true := by
  decide

/-- C2 witness for the amended statement. -/
theorem convert_scratch_not_removed_witness :
    (convertCifToUsdz okOrchEnv).tempDirCreated = true ∧
    (convertCifToUsdz okOrchEnv).tempDirExistsAfter = true ∧
    cleanupTempDir (convertCifToUsdz okOrchEnv).tempDirExistsAfter = false :=
  convert_scratch_not_removed okOrchEnv rfl (by decide) (by decide) rfl

/-- A configured, available backend with the method present whose call
raises contributes one recorded exception attempt and the loop continues
with the remaining backends. -/
theorem usdzLoop_cons_raises (keys : List String) (env : String → UsdzBackend)
    (name key : String) (t : List (String × String)) (acc : List UsdzAttempt) (m : String)
    (hk : key ∈ keys) (hav : (env key).avail ≠ AvailCheck.returns false)
    (hm : (env key).hasMethod = true) (hc : (env key).call = ConvCall.raises m) :
    usdzLoop keys env ((name, key) :: t) acc =
      usdzLoop keys env t
        (acc ++ [⟨name, false, name ++ "转换器执行异常: " ++ m, some "exception"⟩]) := by
  cases havv : (env key).avail with
  | returns b =>
    cases b with
    | false => exact absurd havv hav
    | true => simp [usdzLoop, hk, havv, hm, hc]
  | noMethod => simp [usdzLoop, hk, havv, hm, hc]
  | raises m2 => simp [usdzLoop, hk, havv, hm, hc]

/-- C9: convert_cif_to_usdz always yields a structured triple whose details
record the attempted packaging backends in priority order (a prefix of the
Pixar, Apple, Docker name list); an mkdtemp exception is converted into a
structured failure report instead of propagating; and a first backend whose
conversion call raises is turned into a recorded exception attempt after
which the loop simply continues with the remaining backends. -/
theorem convert_structured_no_escape (env : OrchEnv) :
    ((convertCifToUsdz env).info.attemptNames <+: usdzPriority.map Prod.fst)
    ∧ (∀ e, env.inputExists = true → ¬env.cifConverters = [] → ¬env.usdzKeys = [] →
        env.mkdtempExc = some e →
        (convertCifToUsdz env).ok = false ∧
        (convertCifToUsdz env).message = "转换过程中发生错误: " ++ e ∧
        (convertCifToUsdz env).info =
          ConvInfo.report [] [] (some ("转换过程中发生错误: " ++ e)) none)
    ∧ (∀ m, "pixar_usd" ∈ env.usdzKeys →
        (env.usdz "pixar_usd").avail ≠ AvailCheck.returns false →
        (env.usdz "pixar_usd").hasMethod = true →
        (env.usdz "pixar_usd").call = ConvCall.raises m →
        convertObjToUsdz env.usdzKeys env.usdz =
          usdzLoop env.usdzKeys env.usdz
            [("Apple USD", "apple_usd"), ("Docker USD", "docker_usd")]
            [⟨"Pixar USD", false, "Pixar USD转换器执行异常: " ++ m, some "exception"⟩]) := by
  refine ⟨?_, ?_, ?_⟩
  · unfold convertCifToUsdz
    by_cases hi : env.inputExists
    · by_cases hc : env.cifConverters.isEmpty
      · simp [hi, hc, ConvInfo.attemptNames]
      · by_cases hu : env.usdzKeys.isEmpty
        · simp [hi, hc, hu, ConvInfo.attemptNames]
        · simp only [hi, hc, hu, Bool.not_true, Bool.false_eq_true, if_false]
          cases hm : env.mkdtempExc with
          | some e => simp [ConvInfo.attemptNames]
          | none =>
            simp only [hm]
            obtain ⟨k, hk⟩ := usdzLoop_attempts_take env.usdzKeys env.usdz usdzPriority []
            split
            · simp [ConvInfo.attemptNames]
            · split
              · simp only [ConvInfo.attemptNames, convertObjToUsdz]
                rw [hk]
                simp [ List.take_prefix]
              · split <;>
                · simp only [ConvInfo.attemptNames, convertObjToUsdz]
                  rw [hk]
                  simp [ List.take_prefix]
    · simp [hi, ConvInfo.attemptNames]
  · intro e hi hc hu he
    have hc2 : env.cifConverters.isEmpty = false := by simpa [List.isEmpty_iff] using hc
    have hu2 : env.usdzKeys.isEmpty = false := by simpa [List.isEmpty_iff] using hu
    unfold convertCifToUsdz
    rw [hi, hc2, hu2, he]
    simp
  · intro m hk hav hm hc
    exact usdzLoop_cons_raises env.usdzKeys env.usdz "Pixar USD" "pixar_usd"
      [("Apple USD", "apple_usd"), ("Docker USD", "docker_usd")] [] m hk hav hm hc

/-- C9 witness: an mkdtemp failure is reported structurally, and an
exception in the first packaging backend is recorded as an attempt while
the loop continues. -/
theorem convert_structured_no_escape_witness :
    ((convertCifToUsdz mkdtempFailEnv).ok = false ∧
      (convertCifToUsdz mkdtempFailEnv).message = "转换过程中发生错误: " ++ "disk full" ∧
      (convertCifToUsdz mkdtempFailEnv).info =
        ConvInfo.report [] [] (some ("转换过程中发生错误: " ++ "disk full")) none) ∧
    convertObjToUsdz raisingPixarEnv.usdzKeys raisingPixarEnv.usdz =
      usdzLoop raisingPixarEnv.usdzKeys raisingPixarEnv.usdz
        [("Apple USD", "apple_usd"), ("Docker USD", "docker_usd")]
        [⟨"Pixar USD", false, "Pixar USD转换器执行异常: " ++ "kaboom", some "exception"⟩] :=
  ⟨(convert_structured_no_escape mkdtempFailEnv).2.1 "disk full" rfl (by decide) (by decide) rfl,
   (convert_structured_no_escape raisingPixarEnv).2.2 "kaboom" (by decide) (by decide)
     (by decide) (by decide)⟩

/-- C6: when the primary parsing backend (pymatgen, first in the default
order with all three backends available) raises and the secondary (ase)
succeeds, convert_cif_to_obj returns success with the secondary recorded as
the converter used, and the primary backend failure reason is retained in
the returned warnings. -/
theorem reliable_parser_fallback (beh : String → TryOutcome) (e : String)
    (hp : beh "pymatgen" = TryOutcome.raises e) (hs : beh "ase" = TryOutcome.succeeds) :
    (reliableConvertCifToObj beh reliableDefaultOrder true none).success = true ∧
    (reliableConvertCifToObj beh reliableDefaultOrder true none).converterUsed = some "ase" ∧
    ("pymatgen 转换器失败: " ++ e) ∈
      (reliableConvertCifToObj beh reliableDefaultOrder true none).warnings := by
  have horder : getConverterOrder reliableDefaultOrder none = ["pymatgen", "ase", "builtin"] := by
    decide
  unfold reliableConvertCifToObj
  rw [if_pos rfl, horder]
  simp [reliableLoop, hp, hs, reliableDefaultOrder]

/-- C6 witness at a concrete behavior map. -/
theorem reliable_parser_fallback_witness :
    (reliableConvertCifToObj
        (fun n => if n == "pymatgen" then TryOutcome.raises "parse boom" else TryOutcome.succeeds)
        reliableDefaultOrder true none).success = true ∧
    (reliableConvertCifToObj
        (fun n => if n == "pymatgen" then TryOutcome.raises "parse boom" else TryOutcome.succeeds)
        reliableDefaultOrder true none).converterUsed = some "ase" ∧
    ("pymatgen 转换器失败: " ++ "parse boom") ∈
      (reliableConvertCifToObj
        (fun n => if n == "pymatgen" then TryOutcome.raises "parse boom" else TryOutcome.succeeds)
        reliableDefaultOrder true none).warnings :=
  reliable_parser_fallback
    (fun n => if n == "pymatgen" then TryOutcome.raises "parse boom" else TryOutcome.succeeds)
    "parse boom" (by decide) (by decide)

/-- A duplicate-free list whose elements are all equal has at most one
element. -/
theorem length_le_one_of_nodup_all_eq {α : Type} (l : List α) (h : l.Nodup)
    (he : ∀ x ∈ l, ∀ y ∈ l, x = y) : l.length ≤ 1 := by
  match l with
  | [] => simp
  | [x] => simp
  | x :: y :: t =>
    exfalso
    have hxy : x = y := he x (by simp) y (by simp)
    rw [List.nodup_cons] at h
    exact h.1 (hxy ▸ List.mem_cons_self y t)

/-- With duplicate-free neighbor lists, the ASE bond list is duplicate
free: pairs from different atoms differ in the first component, pairs from
one atom come from distinct neighbors. -/
theorem aseGetBonds_nodup (n : ℕ) (nn : Nat → List Nat) (h : ∀ i, (nn i).Nodup) :
    (aseGetBonds n nn).Nodup := by
  unfold aseGetBonds
  rw [List.nodup_flatMap]
  constructor
  · intro i _
    exact ((h i).filter _).map (fun a b hab => congrArg Prod.snd hab)
  · refine List.Pairwise.imp ?_ (List.nodup_range n)
    intro i j hij x hxi hxj
    rw [List.mem_map] at hxi hxj
    obtain ⟨a, -, ha⟩ := hxi
    obtain ⟨b, -, hb⟩ := hxj
    exact hij (congrArg Prod.fst (ha.trans hb.symm))

/-- The projection of the pymatgen bond list to its index pairs, written as
the same flatMap shape. -/
theorem pmgGetBonds_proj (n : ℕ) (pn : Nat → Option (List (Nat × Frac))) :
    (pmgGetBonds n pn).map (fun q => (q.1, q.2.1)) =
      (List.range n).flatMap (fun i =>
        match pn i with
        | none => []
        | some neighbors =>
          ((neighbors.filter (fun nb => i < nb.1)).map (fun nb => (i, nb.1)))) := by
  unfold pmgGetBonds
  rw [List.map_flatMap]
  refine List.flatMap_congr ?_
  intro i _
  cases pn i with
  | none => rfl
  | some neighbors => simp

/-- With duplicate-free neighbor indices, the pymatgen bond index pairs are
duplicate free. -/
theorem pmgGetBonds_proj_nodup (n : ℕ) (pn : Nat → Option (List (Nat × Frac)))
    (h : ∀ i l, pn i = some l → (l.map Prod.fst).Nodup) :
    ((pmgGetBonds n pn).map (fun q => (q.1, q.2.1))).Nodup := by
  rw [pmgGetBonds_proj]
  rw [List.nodup_flatMap]
  constructor
  · intro i _
    cases hpi : pn i with
    | none => simp
    | some neighbors =>
      have hnb : (neighbors.map Prod.fst).Nodup := h i neighbors hpi
      have hne : neighbors.Nodup := List.Nodup.of_map Prod.fst hnb
      refine (hne.filter _).map_on ?_
      intro x hx y hy hxy
      have hfst : x.1 = y.1 := congrArg Prod.snd hxy
      exact List.inj_on_of_nodup_map hnb (List.mem_of_mem_filter hx)
        (List.mem_of_mem_filter hy) hfst
  · refine List.Pairwise.imp ?_ (List.nodup_range n)
    intro i j hij x hxi hxj
    have hxi1 : x.1 = i := by
      cases hpi : pn i with
      | none => simp only [hpi] at hxi; simp at hxi
      | some nb =>
        simp only [hpi] at hxi
        rw [List.mem_map] at hxi
        obtain ⟨a, -, ha⟩ := hxi
        exact (congrArg Prod.fst ha).symm
    have hxj1 : x.1 = j := by
      cases hpj : pn j with
      | none => simp only [hpj] at hxj; simp at hxj
      | some nb =>
        simp only [hpj] at hxj
        rw [List.mem_map] at hxj
        obtain ⟨a, -, ha⟩ := hxj
        exact (congrArg Prod.fst ha).symm
    exact hij (hxi1 ▸ hxj1)

/-- With a duplicate-free pair list whose pairs are strictly increasing,
at most one orientation of any unordered pair appears. -/
theorem pair_filter_length_le_one (l : List (ℕ × ℕ)) (hnd : l.Nodup)
    (hlt : ∀ p ∈ l, p.1 < p.2) (a b : ℕ) :
    ((l.filter (fun q => q == (a, b) || q == (b, a))).length) ≤ 1 := by
  refine length_le_one_of_nodup_all_eq _ (hnd.filter _) ?_
  intro x hx y hy
  rw [List.mem_filter] at hx hy
  have hx2 : x = (a, b) ∨ x = (b, a) := by
    rcases Bool.or_eq_true_iff.mp hx.2 with hc | hc
    · exact Or.inl (eq_of_beq hc)
    · exact Or.inr (eq_of_beq hc)
  have hy2 : y = (a, b) ∨ y = (b, a) := by
    rcases Bool.or_eq_true_iff.mp hy.2 with hc | hc
    · exact Or.inl (eq_of_beq hc)
    · exact Or.inr (eq_of_beq hc)
  have hxl := hlt x hx.1
  have hyl := hlt y hy.1
  rcases hx2 with rfl | rfl <;> rcases hy2 with rfl | rfl
  · rfl
  · exact absurd hyl (Nat.lt_asymm hxl)
  · exact absurd hxl (Nat.lt_asymm hyl)
  · rfl

/-- C5 (amended): both bond-inference implementations unconditionally emit
only index pairs with i strictly below j (so never both orientations of an
unordered pair); duplicate (i, j) entries are not prevented in general --
the loops discard the periodic-image offsets and do not deduplicate -- and
the bond lists are duplicate free exactly under the proviso that each
per-atom neighbor list carries each index at most once, which periodic
images violate (see the counterexample). -/
theorem bonds_sorted_no_duplicates (n : ℕ) (nn : Nat → List Nat)
    (pn : Nat → Option (List (Nat × Frac))) :
    (∀ p ∈ aseGetBonds n nn, p.1 < p.2)
    ∧ (∀ q ∈ pmgGetBonds n pn, q.1 < q.2.1)
    ∧ ((∀ i, (nn i).Nodup) →
        ∀ a b, ((aseGetBonds n nn).filter
          (fun q => q == (a, b) || q == (b, a))).length ≤ 1)
    ∧ ((∀ i l, pn i = some l → (l.map Prod.fst).Nodup) →
        ∀ a b, (((pmgGetBonds n pn).map (fun q => (q.1, q.2.1))).filter
          (fun q => q == (a, b) || q == (b, a))).length ≤ 1) := by
  have hase : ∀ p ∈ aseGetBonds n nn, p.1 < p.2 := by
    intro p hp
    unfold aseGetBonds at hp
    rw [List.mem_flatMap] at hp
    obtain ⟨i, -, hp⟩ := hp
    rw [List.mem_map] at hp
    obtain ⟨j, hj, rfl⟩ := hp
    rw [List.mem_filter] at hj
    exact of_decide_eq_true hj.2
  have hpmg : ∀ q ∈ pmgGetBonds n pn, q.1 < q.2.1 := by
    intro q hq
    unfold pmgGetBonds at hq
    rw [List.mem_flatMap] at hq
    obtain ⟨i, -, hq⟩ := hq
    cases hpi : pn i with
    | none => rw [hpi] at hq; simp at hq
    | some nb =>
      rw [hpi] at hq
      rw [List.mem_map] at hq
      obtain ⟨x, hx, rfl⟩ := hq
      rw [List.mem_filter] at hx
      exact of_decide_eq_true hx.2
  refine ⟨hase, hpmg, ?_, ?_⟩
  · intro h1
    exact pair_filter_length_le_one _ (aseGetBonds_nodup n nn h1) hase
  · intro h2
    refine pair_filter_length_le_one _ (pmgGetBonds_proj_nodup n pn h2) ?_
    intro p hp
    rw [List.mem_map] at hp
    obtain ⟨q, hq, rfl⟩ := hp
    exact hpmg q hq

/-- C5 counterexample: when an atom reaches the same neighbor through two
periodic images, both neighbor libraries list the index twice, the offsets
are discarded, and both bond lists contain the duplicate bond (0, 1) twice
-- refuting the unconditional no-duplicate-bonds claim. -/
theorem bonds_duplicate_images_cex :
    aseGetBonds 2 nnDuplicated = [(0, 1), (0, 1)] ∧
    ¬((aseGetBonds 2 nnDuplicated).filter
        (fun q => q == ((0:ℕ), (1:ℕ)) || q == ((1:ℕ), (0:ℕ)))).length ≤ 1 ∧
    (pmgGetBonds 2 pnDuplicated).map (fun q => (q.1, q.2.1)) = [(0, 1), (0, 1)] ∧
    ¬(((pmgGetBonds 2 pnDuplicated).map (fun q => (q.1, q.2.1))).filter
        (fun q => q == ((0:ℕ), (1:ℕ)) || q == ((1:ℕ), (0:ℕ)))).length ≤ 1 := by
  decide

/-- C5 witness: the ordering conclusion at the concrete pair (0,1), and the
conditional duplicate-freedom conclusions with their duplicate-free-neighbor
provisos discharged on concrete data. -/
theorem bonds_sorted_no_duplicates_witness :
    ((0:ℕ), (1:ℕ)).1 < ((0:ℕ), (1:ℕ)).2
    ∧ ((aseGetBonds 3 nnWitness).filter
        (fun q => q == ((0:ℕ), (1:ℕ)) || q == ((1:ℕ), (0:ℕ)))).length ≤ 1
    ∧ (((pmgGetBonds 3 pnWitness).map (fun q => (q.1, q.2.1))).filter
        (fun q => q == ((0:ℕ), (1:ℕ)) || q == ((1:ℕ), (0:ℕ)))).length ≤ 1 :=
  ⟨(bonds_sorted_no_duplicates 3 nnWitness pnWitness).1 (0, 1) (by decide),
   (bonds_sorted_no_duplicates 3 nnWitness pnWitness).2.2.1
      (fun i => by show ([1, 2] : List Nat).Nodup; decide) 0 1,
   (bonds_sorted_no_duplicates 3 nnWitness pnWitness).2.2.2
      (fun i l h => by
        simp only [pnWitness] at h
        injection h with h2
        rw [← h2]
        decide) 0 1⟩

/-- Scaling by zero collapses any position to the origin. -/
theorem vSmul_zero (a : V3) : vSmul 0 a = ((0:ℝ), 0, 0) := by
  simp [vSmul]

/-- A sphere of radius zero puts every vertex at its center. -/
theorem sphereVertexPos_radius_zero (center : V3) (res i j : ℕ) :
    sphereVertexPos center 0 res i j = center := by
  simp [sphereVertexPos]

/-- Every vertex of a radius-zero sphere equals the center. -/
theorem mem_sphereVertices_radius_zero (center : V3) (res : ℕ) (v : V3)
    (hv : v ∈ sphereVertices center 0 res) : v = center := by
  unfold sphereVertices at hv
  rw [List.mem_flatMap] at hv
  obtain ⟨i, -, hv⟩ := hv
  rw [List.mem_map] at hv
  obtain ⟨j, -, rfl⟩ := hv
  exact sphereVertexPos_radius_zero center res i j

/-- A cylinder with coinciding endpoints is skipped: the zero-length guard
returns no geometry. -/
theorem aseCreateCylinder_self (a : V3) (r : ℝ) (res : ℕ) :
    aseCreateCylinder a a r res = ([], []) := by
  unfold aseCreateCylinder
  have h : vNorm (vSub a a) = 0 := by
    simp [vSub, vNorm]
  rw [if_pos h]

/-- Vertex-wise invariants survive a fold whose steps preserve them. -/
theorem foldl_vertices_all {α : Type} (P : V3 → Prop)
    (step : (List V3 × List (List ℕ)) → α → (List V3 × List (List ℕ)))
    (hstep : ∀ acc a, (∀ v ∈ acc.1, P v) → ∀ v ∈ (step acc a).1, P v) :
    ∀ (l : List α) (acc : List V3 × List (List ℕ)),
      (∀ v ∈ acc.1, P v) → ∀ v ∈ (l.foldl step acc).1, P v := by
  intro l
  induction l with
  | nil => intro acc hacc; exact hacc
  | cons a t ih => intro acc hacc; exact ih (step acc a) (hstep acc a hacc)

/-- With scale factor zero, every vertex the ASE conversion emits sits at
the origin. -/
theorem aseConvertToObj_zero_scale_vertices (atoms : List AseAtom)
    (bonds : List (ℕ × ℕ)) (ib : Bool) (sres bres : ℕ) :
    ∀ v ∈ (aseConvertToObj atoms bonds ib 0 sres bres).vertices, v = ((0:ℝ), 0, 0) := by
  have hatom : ∀ v ∈ (aseAtomPass atoms 0 sres).1, v = ((0:ℝ), 0, 0) := by
    unfold aseAtomPass
    refine foldl_vertices_all _ _ ?_ atoms ([], []) (by simp)
    intro acc a hacc v hv
    rw [List.mem_append] at hv
    rcases hv with hv | hv
    · exact hacc v hv
    · have hr : a.covalentRadius * (1/2) * 0 = (0:ℝ) := by ring
      rw [hr, vSmul_zero] at hv
      exact mem_sphereVertices_radius_zero _ sres v hv
  intro v hv
  unfold aseConvertToObj at hv
  cases ib with
  | false => exact hatom v hv
  | true =>
    refine foldl_vertices_all (fun v => v = ((0:ℝ), 0, 0)) _ ?_ bonds
      (aseAtomPass atoms 0 sres) hatom v hv
    intro acc b hacc w hw
    cases hb1 : atoms.get? b.1 with
    | none =>
      cases hb2 : atoms.get? b.2 with
      | none => rw [hb1, hb2] at hw; exact hacc w hw
      | some aj => rw [hb1, hb2] at hw; exact hacc w hw
    | some ai =>
      cases hb2 : atoms.get? b.2 with
      | none => rw [hb1, hb2] at hw; exact hacc w hw
      | some aj =>
        rw [hb1, hb2] at hw
        have hw2 : w ∈ acc.1 ++
            (aseCreateCylinder (vSmul 0 ai.pos) (vSmul 0 aj.pos) (1 / 10 * 0) bres).1 := hw
        rw [vSmul_zero, vSmul_zero, aseCreateCylinder_self] at hw2
        exact hacc w (by simpa using hw2)

/-- C3 (amended): the mesh-building path performs no validation of the
scale factor; with scale_factor equal to zero the conversion still reports
success and silently emits degenerate geometry in which every vertex
coincides with the origin (all faces have zero area), instead of failing
fast. -/
theorem build_zero_scale_succeeds_degenerate (atoms : List AseAtom)
    (bonds : List (ℕ × ℕ)) (ib : Bool) (sres bres : ℕ) :
    (aseConvertToObj atoms bonds ib 0 sres bres).success = true ∧
    ∀ v ∈ (aseConvertToObj atoms bonds ib 0 sres bres).vertices, v = ((0:ℝ), 0, 0) :=
  ⟨rfl, aseConvertToObj_zero_scale_vertices atoms bonds ib sres bres⟩

/-- C3 counterexample: one atom at (1,2,3), scale factor zero: the build
succeeds and emits a nonempty face list whose vertices have collapsed to a
single point, contradicting the claimed fail-fast geometry failure. -/
theorem scale_zero_not_rejected :
    (aseConvertToObj [⟨((1:ℝ), 2, 3), 1⟩] [] true 0 2 8).success = true ∧
    (aseConvertToObj [⟨((1:ℝ), 2, 3), 1⟩] [] true 0 2 8).faces =
      offsetFaces 0 (aseSphereFaces 2) ∧
    offsetFaces 0 (aseSphereFaces 2) ≠ [] ∧
    (∀ v ∈ (aseConvertToObj [⟨((1:ℝ), 2, 3), 1⟩] [] true 0 2 8).vertices,
      v = ((0:ℝ), 0, 0)) := by
  exact ⟨rfl, rfl, by decide, aseConvertToObj_zero_scale_vertices _ _ _ _ _⟩

/-- C3 witness: the first vertex of the concrete degenerate sphere is the
origin, obtained from the amended theorem at that vertex. -/
theorem build_zero_scale_witness :
    (aseConvertToObj [⟨((1:ℝ), 2, 3), 1⟩] [] true 0 2 8).success = true ∧
    sphereVertexPos (vSmul 0 ((1:ℝ), 2, 3)) ((1:ℝ) * (1/2) * 0) 2 0 0 = ((0:ℝ), 0, 0) := by
  refine ⟨(build_zero_scale_succeeds_degenerate [⟨((1:ℝ), 2, 3), 1⟩] [] true 2 8).1, ?_⟩
  refine (build_zero_scale_succeeds_degenerate [⟨((1:ℝ), 2, 3), 1⟩] [] true 2 8).2 _ ?_
  have hv : (aseConvertToObj [⟨((1:ℝ), 2, 3), 1⟩] [] true 0 2 8).vertices =
      sphereVertices (vSmul 0 ((1:ℝ), 2, 3)) ((1:ℝ) * (1/2) * 0) 2 := by
    show [] ++ sphereVertices (vSmul 0 ((1:ℝ), 2, 3)) ((1:ℝ) * (1/2) * 0) 2 = _
    rw [List.nil_append]
  rw [hv]
  unfold sphereVertices
  rw [List.mem_flatMap]
  exact ⟨0, by decide, List.mem_map.mpr ⟨0, by decide, rfl⟩⟩

/-- Any three-entry list on which the predicate fails at two given
positions keeps at most one entry when filtered. -/
theorem filter_three_le_one (p : ℕ → Bool) (a b c : ℕ)
    (h : p a = false ∧ p b = false ∨ p a = false ∧ p c = false ∨
      p b = false ∧ p c = false) :
    (List.filter p [a, b, c]).length ≤ 1 := by
  rcases h with ⟨h1, h2⟩ | ⟨h1, h2⟩ | ⟨h1, h2⟩ <;>
    cases hpa : p a <;> cases hpb : p b <;> cases hpc : p c <;>
      simp_all [List.filter]

/-- Ring index of a one-based sphere vertex index built as row times ring
size plus column. -/
theorem sphere_row_of_index (res i j : ℕ) (hres : 0 < res * 2) (hj : j < res * 2) :
    (i * (res * 2) + j + 1 - 1) / (res * 2) = i := by
  rw [Nat.add_sub_cancel, Nat.mul_comm i (res * 2), Nat.mul_add_div hres,
    Nat.div_eq_of_lt hj, Nat.add_zero]

/-- C7 (amended): the ASE sphere tessellation drops the degenerate pole
triangles: every emitted face references at most one vertex of the bottom
pole ring (ring 0) and at most one vertex of the top pole ring (ring res),
so no face carries two coincident pole vertices -- whereas the pymatgen
create_sphere does emit pole faces with two coincident pole vertices (see
the counterexample). -/
theorem ase_sphere_pole_single (res : ℕ) (f : List ℕ) (hf : f ∈ aseSphereFaces res) :
    ((f.filter (fun v => decide ((v - 1) / (res * 2) = 0))).length ≤ 1) ∧
    ((f.filter (fun v => decide ((v - 1) / (res * 2) = res))).length ≤ 1) := by
  unfold aseSphereFaces at hf
  rw [List.mem_flatMap] at hf
  obtain ⟨i, hi, hf⟩ := hf
  rw [List.mem_flatMap] at hf
  obtain ⟨j, hj, hf⟩ := hf
  rw [List.mem_range] at hi hj
  have hres : 0 < res * 2 := by omega
  have hj2 : (j + 1) % (res * 2) < res * 2 := Nat.mod_lt _ hres
  have hr1 := sphere_row_of_index res i j hres hj
  have hr2 := sphere_row_of_index res i ((j + 1) % (res * 2)) hres hj2
  have hr3 := sphere_row_of_index res (i + 1) ((j + 1) % (res * 2)) hres hj2
  have hr4 := sphere_row_of_index res (i + 1) j hres hj
  rw [List.mem_append] at hf
  rcases hf with hf | hf
  · by_cases hi0 : 0 < i
    · rw [if_pos hi0] at hf
      rw [List.mem_singleton] at hf
      subst hf
      constructor
      · refine filter_three_le_one _ _ _ _ (Or.inl ⟨?_, ?_⟩)
        · rw [hr1]; exact decide_eq_false (by omega)
        · rw [hr2]; exact decide_eq_false (by omega)
      · refine filter_three_le_one _ _ _ _ (Or.inl ⟨?_, ?_⟩)
        · rw [hr1]; exact decide_eq_false (by omega)
        · rw [hr2]; exact decide_eq_false (by omega)
    · rw [if_neg hi0] at hf
      simp at hf
  · by_cases hires : i < res - 1
    · rw [if_pos hires] at hf
      rw [List.mem_singleton] at hf
      subst hf
      constructor
      · refine filter_three_le_one _ _ _ _ (Or.inr (Or.inr ⟨?_, ?_⟩))
        · rw [hr3]; exact decide_eq_false (by omega)
        · rw [hr4]; exact decide_eq_false (by omega)
      · refine filter_three_le_one _ _ _ _ (Or.inr (Or.inr ⟨?_, ?_⟩))
        · rw [hr3]; exact decide_eq_false (by omega)
        · rw [hr4]; exact decide_eq_false (by omega)
    · rw [if_neg hires] at hf
      simp at hf

/-- C7 witness at the first face of the resolution-2 ASE sphere. -/
theorem ase_sphere_pole_single_witness :
    (([2, 6, 5].filter (fun v => decide ((v - 1) / (2 * 2) = 0))).length ≤ 1) ∧
    (([2, 6, 5].filter (fun v => decide ((v - 1) / (2 * 2) = 2))).length ≤ 1) :=
  ase_sphere_pole_single 2 [2, 6, 5] (by decide)

/-- C7 counterexample: pymatgen create_sphere at center (0,0,0), radius 1,
resolution 2 emits the bottom-ring face (0, 4, 1) whose vertices 0 and 1
both sit exactly at the south pole (0,0,-1): a degenerate pole triangle
with two identical vertex positions. -/
theorem pmg_sphere_pole_degenerate :
    ((0, 4, 1) ∈ pmgSphereFaces 2) ∧
    (sphereVertices ((0:ℝ), 0, 0) 1 2).get? 0 = some ((0:ℝ), 0, -1) ∧
    (sphereVertices ((0:ℝ), 0, 0) 1 2).get? 1 = some ((0:ℝ), 0, -1) := by
  refine ⟨by decide, ?_, ?_⟩
  · have h0 : (sphereVertices ((0:ℝ), 0, 0) 1 2).get? 0 =
        some (sphereVertexPos ((0:ℝ), 0, 0) 1 2 0 0) := rfl
    rw [h0]
    congr 1
    unfold sphereVertexPos
    have hlat : Real.pi * (-(1/2) + ((0:ℕ):ℝ) / ((2:ℕ):ℝ)) = -(Real.pi/2) := by
      push_cast
      ring
    rw [hlat]
    simp only [Real.cos_neg, Real.cos_pi_div_two, Real.sin_neg, Real.sin_pi_div_two]
    norm_num
  · have h1 : (sphereVertices ((0:ℝ), 0, 0) 1 2).get? 1 =
        some (sphereVertexPos ((0:ℝ), 0, 0) 1 2 0 1) := rfl
    rw [h1]
    congr 1
    unfold sphereVertexPos
    have hlat : Real.pi * (-(1/2) + ((0:ℕ):ℝ) / ((2:ℕ):ℝ)) = -(Real.pi/2) := by
      push_cast
      ring
    rw [hlat]
    simp only [Real.cos_neg, Real.cos_pi_div_two, Real.sin_neg, Real.sin_pi_div_two]
    norm_num

/-- Every canonical element name round trips through the tier-1 extraction,
and table keys are fixed points of the symbol cleanup. -/
theorem cpk_keys_roundtrip :
    cpkColors.all (fun p =>
      extractElementFromName (p.1 ++ "_MAT") == some p.1 &&
      cleanElementSymbol p.1 == p.1) = true := by
  decide

/-- A key of the CPK table is the first component of one of its entries. -/
theorem isCpkKey_elim {el : String} (h : isCpkKey el = true) :
    ∃ c, (el, c) ∈ cpkColors := by
  unfold isCpkKey at h
  rw [List.any_eq_true] at h
  obtain ⟨p, hp, he⟩ := h
  have hpe : p.1 = el := eq_of_beq he
  exact ⟨p.2, by rw [← hpe, Prod.mk.eta]; exact hp⟩

/-- Tier-1 extraction recovers the element from its canonical MAT name. -/
theorem extract_elMAT {el : String} (h : isCpkKey el = true) :
    extractElementFromName (el ++ "_MAT") = some el := by
  obtain ⟨c, hc⟩ := isCpkKey_elim h
  have hall := List.all_eq_true.mp cpk_keys_roundtrip (el, c) hc
  rw [Bool.and_eq_true] at hall
  exact eq_of_beq hall.1

/-- Table keys are unchanged by the symbol cleanup. -/
theorem clean_cpk_id {el : String} (h : isCpkKey el = true) :
    cleanElementSymbol el = el := by
  obtain ⟨c, hc⟩ := isCpkKey_elim h
  have hall := List.all_eq_true.mp cpk_keys_roundtrip (el, c) hc
  rw [Bool.and_eq_true] at hall
  exact eq_of_beq hall.2

/-- Inference on a canonical MAT name succeeds on tier 1, for any color. -/
theorem infer_elMAT {el : String} (h : isCpkKey el = true) (c : Color) :
    inferElementFromMaterial (el ++ "_MAT") c = some el := by
  unfold inferElementFromMaterial
  rw [extract_elMAT h]

/-- The canonical name of a table key. -/
theorem stdname_elMAT {el : String} (h : isCpkKey el = true) :
    getStandardMaterialName el = el ++ "_MAT" := by
  unfold getStandardMaterialName
  rw [clean_cpk_id h]

/-- The color-matching fold only ever selects keys of the processed list. -/
theorem matchColor_fold_mem (c : Color) :
    ∀ (l : List (String × Color)) (acc : Option Frac × Option String) (s : String),
      (l.foldl (matchColorStep c) acc).2 = some s →
      acc.2 = some s ∨ ∃ p ∈ l, p.1 = s := by
  intro l
  induction l with
  | nil => exact fun acc s h => Or.inl h
  | cons p t ih =>
    intro acc s h
    rw [List.foldl_cons] at h
    have hstep : (matchColorStep c acc p).2 = some p.1 ∨ (matchColorStep c acc p).2 = acc.2 := by
      unfold matchColorStep
      split <;> dsimp only [] <;> split
      · exact Or.inl rfl
      · exact Or.inr rfl
      · exact Or.inl rfl
      · exact Or.inr rfl
    rcases ih (matchColorStep c acc p) s h with h2 | ⟨q, hq, hqs⟩
    · rcases hstep with h3 | h3
      · rw [h3] at h2
        injection h2 with h4
        exact Or.inr ⟨p, List.mem_cons_self p t, h4⟩
      · rw [h3] at h2
        exact Or.inl h2
    · exact Or.inr ⟨q, List.mem_cons_of_mem p hq, hqs⟩

/-- Tier 2 returns only table keys. -/
theorem matchElementByColor_key {c : Color} {s : String}
    (h : matchElementByColor c = some s) : isCpkKey s = true := by
  unfold matchElementByColor at h
  rcases matchColor_fold_mem c cpkColors (none, none) s h with h2 | ⟨p, hp, hps⟩
  · exact Option.noConfusion h2
  · unfold isCpkKey
    rw [List.any_eq_true]
    exact ⟨p, hp, by simp [hps]⟩

/-- Tier 1 returns only table keys. -/
theorem extract_key {n el : String} (h : extractElementFromName n = some el) :
    isCpkKey el = true := by
  simp only [extractElementFromName] at h
  cases hm : elementSymbolMatch (pyReplace (pyReplace n "atom_" "") "_MAT" "").data with
  | none => rw [hm] at h; exact Option.noConfusion h
  | some e2 =>
    rw [hm] at h
    have h2 : (if isCpkKey e2 = true then some e2 else none) = some el := h
    by_cases hk : isCpkKey e2
    · rw [if_pos hk] at h2
      injection h2 with h3
      rw [← h3]
      exact hk
    · rw [if_neg (by simpa using hk)] at h2
      exact Option.noConfusion h2

/-- Any successful inference yields a table key. -/
theorem infer_key {n : String} {c : Color} {el : String}
    (h : inferElementFromMaterial n c = some el) : isCpkKey el = true := by
  unfold inferElementFromMaterial at h
  cases he : extractElementFromName n with
  | some e2 =>
    rw [he] at h
    injection h with h2
    exact h2 ▸ extract_key he
  | none =>
    rw [he] at h
    cases hc : matchElementByColor c with
    | some e2 =>
      rw [hc] at h
      injection h with h2
      exact h2 ▸ matchElementByColor_key hc
    | none =>
      rw [hc] at h
      unfold inferFromHexName at h
      cases hd : decodeHexName n with
      | none => rw [hd] at h; exact Option.noConfusion h
      | some col =>
        rw [hd] at h
        exact matchElementByColor_key h

/-- Rounding to six decimals is idempotent. -/
theorem roundTo6_idem (a : Frac) : roundTo6 (roundTo6 a) = roundTo6 a := by
  unfold roundTo6
  refine Prod.ext ?_ rfl
  show Int.fdiv (2 * Int.fdiv (2 * a.1 * 1000000 + a.2) (2 * a.2) * 1000000 + 1000000)
    (2 * 1000000) = Int.fdiv (2 * a.1 * 1000000 + a.2) (2 * a.2)
  generalize Int.fdiv (2 * a.1 * 1000000 + a.2) (2 * a.2) = m
  have h : 2 * m * 1000000 + 1000000 = 1000000 + m * 2000000 := by ring
  rw [h, show ((2 : ℤ) * 1000000) = 2000000 by norm_num,
    Int.fdiv_eq_ediv _ (by norm_num), Int.add_mul_ediv_right _ _ (by norm_num)]
  norm_num

/-- Componentwise idempotence of color rounding. -/
theorem roundColor_idem (c : Color) : roundColor (roundColor c) = roundColor c := by
  unfold roundColor
  rw [roundTo6_idem, roundTo6_idem, roundTo6_idem]

/-- Entry-wise invariants survive a dict insertion. -/
theorem dictInsert_forall {P : String × Color → Prop} (m : List (String × Color))
    (k : String) (v : Color) (h : ∀ e ∈ m, P e) (hkv : P (k, v)) :
    ∀ e ∈ dictInsert m k v, P e := by
  unfold dictInsert
  split
  · intro e he
    rw [List.mem_map] at he
    obtain ⟨p, hp, hpe⟩ := he
    by_cases hpk : p.1 == k
    · rw [if_pos hpk] at hpe
      rw [← hpe]
      exact hkv
    · rw [if_neg hpk] at hpe
      rw [← hpe]
      exact h p hp
  · intro e he
    rw [List.mem_append] at he
    rcases he with he | he
    · exact h e he
    · rw [List.mem_singleton] at he
      rw [he]
      exact hkv

/-- Entry-wise invariants survive the whole dict build. -/
theorem dictOfList_foldl_forall {P : String × Color → Prop} :
    ∀ (l : List (String × Color)) (acc : List (String × Color)),
      (∀ e ∈ acc, P e) → (∀ e ∈ l, P e) →
      ∀ e ∈ l.foldl (fun m p => dictInsert m p.1 p.2) acc, P e := by
  intro l
  induction l with
  | nil => intro acc hacc _; exact hacc
  | cons p t ih =>
    intro acc hacc hl
    rw [List.foldl_cons]
    exact ih (dictInsert acc p.1 p.2)
      (dictInsert_forall acc p.1 p.2 hacc (by
        have := hl p (List.mem_cons_self p t)
        rwa [Prod.mk.eta]))
      (fun e he => hl e (List.mem_cons_of_mem p he))

/-- Entry-wise invariants of the parsed dict. -/
theorem dictOfList_forall {P : String × Color → Prop} (l : List (String × Color))
    (h : ∀ e ∈ l, P e) : ∀ e ∈ dictOfList l, P e :=
  dictOfList_foldl_forall l [] (by simp) h

/-- Keys after a dict insertion. -/
theorem dictInsert_keys (m : List (String × Color)) (k : String) (v : Color) :
    (dictInsert m k v).map Prod.fst =
      if m.any (fun p => p.1 == k) then m.map Prod.fst else m.map Prod.fst ++ [k] := by
  unfold dictInsert
  split
  · rename_i hany
    rw [List.map_map]
    refine List.map_congr_left ?_
    intro p hp
    by_cases hpk : p.1 == k
    · simp only [Function.comp_apply, if_pos hpk]
      exact (eq_of_beq hpk).symm
    · simp only [Function.comp_apply, if_neg hpk]
  · simp

/-- Dict insertion preserves key uniqueness. -/
theorem dictInsert_keys_nodup (m : List (String × Color)) (k : String) (v : Color)
    (h : (m.map Prod.fst).Nodup) : ((dictInsert m k v).map Prod.fst).Nodup := by
  rw [dictInsert_keys]
  split
  · exact h
  · rename_i hany
    have hk : k ∉ m.map Prod.fst := by
      intro hmem
      rw [List.mem_map] at hmem
      obtain ⟨p, hp, hpk⟩ := hmem
      exact hany (List.any_eq_true.mpr ⟨p, hp, by simp [hpk]⟩)
    rw [List.nodup_append]
    exact ⟨h, List.nodup_singleton k, by
      intro a ha hb
      rw [List.mem_singleton] at hb
      rw [hb] at ha
      exact hk ha⟩

/-- The parsed dict has unique keys. -/
theorem dictOfList_keys_nodup (l : List (String × Color)) :
    ((dictOfList l).map Prod.fst).Nodup := by
  suffices h : ∀ (l2 : List (String × Color)) (acc : List (String × Color)),
      (acc.map Prod.fst).Nodup →
      ((l2.foldl (fun m p => dictInsert m p.1 p.2) acc).map Prod.fst).Nodup by
    exact h l [] (by simp)
  intro l2
  induction l2 with
  | nil => intro acc hacc; exact hacc
  | cons p t ih =>
    intro acc hacc
    rw [List.foldl_cons]
    exact ih (dictInsert acc p.1 p.2) (dictInsert_keys_nodup acc p.1 p.2 hacc)

/-- Building the dict from a list with unique keys appends it unchanged. -/
theorem foldl_dictInsert_eq_append :
    ∀ (l : List (String × Color)) (acc : List (String × Color)),
      (acc.map Prod.fst ++ l.map Prod.fst).Nodup →
      l.foldl (fun m p => dictInsert m p.1 p.2) acc = acc ++ l := by
  intro l
  induction l with
  | nil => intro acc _; simp
  | cons p t ih =>
    intro acc h
    have hnotin : p.1 ∉ acc.map Prod.fst := by
      rw [List.nodup_append] at h
      intro hmem
      exact h.2.2 hmem (List.mem_cons_self p.1 (t.map Prod.fst))
    have hins : dictInsert acc p.1 p.2 = acc ++ [p] := by
      unfold dictInsert
      rw [if_neg ?hany, Prod.mk.eta]
      case hany =>
        intro hany
        rw [List.any_eq_true] at hany
        obtain ⟨q, hq, hqk⟩ := hany
        exact hnotin (List.mem_map.mpr ⟨q, hq, eq_of_beq hqk⟩)
    rw [List.foldl_cons, hins, ih (acc ++ [p]) (by
      simpa [List.append_assoc] using h)]
    simp

/-- Parsing a table whose keys are unique returns it unchanged. -/
theorem dictOfList_id (l : List (String × Color)) (h : (l.map Prod.fst).Nodup) :
    dictOfList l = l := by
  have := foldl_dictInsert_eq_append l [] (by simpa using h)
  simpa [dictOfList] using this

/-- Dict insertion never shrinks the table. -/
theorem dictInsert_length (m : List (String × Color)) (k : String) (v : Color) :
    m.length ≤ (dictInsert m k v).length := by
  unfold dictInsert
  split
  · rw [List.length_map]
  · rw [List.length_append]
    exact Nat.le_add_right _ _

/-- The dict of a nonempty record list is nonempty. -/
theorem dictOfList_ne_nil (l : List (String × Color)) (h : l ≠ []) :
    dictOfList l ≠ [] := by
  suffices hlen : ∀ (l2 : List (String × Color)) (acc : List (String × Color)),
      acc.length ≤ (l2.foldl (fun m p => dictInsert m p.1 p.2) acc).length by
    cases l with
    | nil => exact absurd rfl h
    | cons p t =>
      have h1 : dictInsert [] p.1 p.2 = [(p.1, p.2)] := rfl
      have h2 := hlen t (dictInsert [] p.1 p.2)
      rw [h1] at h2
      unfold dictOfList
      rw [List.foldl_cons]
      intro hnil
      rw [h1] at hnil
      rw [hnil] at h2
      simp at h2
  intro l2
  induction l2 with
  | nil => intro acc; exact Nat.le_refl _
  | cons p t ih =>
    intro acc
    rw [List.foldl_cons]
    exact Nat.le_trans (dictInsert_length acc p.1 p.2) (ih (dictInsert acc p.1 p.2))

/-- Every entry of a rewritten MTL table has the canonical shape. -/
theorem rewrite_entries_good (preserve : Bool) (mtl : List (String × Color)) :
    ∀ e ∈ rewriteMtlTable (analyzeMaterials preserve mtl), GoodEntry preserve e := by
  unfold rewriteMtlTable
  refine dictOfList_forall _ ?_
  intro e he
  rw [List.mem_map] at he
  obtain ⟨m, hm, hme⟩ := he
  unfold analyzeMaterials at hm
  rw [List.mem_filterMap] at hm
  obtain ⟨p, hp, hmap⟩ := hm
  cases hinf : inferElementFromMaterial p.1 p.2 with
  | none => rw [hinf] at hmap; exact Option.noConfusion hmap
  | some el =>
    rw [hinf] at hmap
    have hmap2 : some (p.1, getStandardMaterialName el,
        if preserve = true then p.2 else getStandardColor el) = some m := hmap
    injection hmap2 with hmap3
    have hkey : isCpkKey el = true := infer_key hinf
    rw [← hmap3] at hme
    refine ⟨el, (if preserve then p.2 else getStandardColor el), hkey, ?_, ?_, ?_⟩
    · rw [← hme]
      exact stdname_elMAT hkey
    · rw [← hme]
    · intro hpres
      rw [hpres]
      simp

/-- On a table of canonical entries, the analysis maps every entry onto
itself: tier 1 fires, the new name equals the old, and the rewritten color
equals the stored one. -/
theorem second_pass_analyze (preserve : Bool) :
    ∀ (l : List (String × Color)), (∀ e ∈ l, GoodEntry preserve e) →
      ((analyzeMaterials preserve l).map (fun m => (m.2.1, roundColor m.2.2)) = l ∧
       ∀ m ∈ analyzeMaterials preserve l, m.2.1 = m.1) := by
  intro l
  induction l with
  | nil => exact fun _ => ⟨rfl, by simp [analyzeMaterials]⟩
  | cons e t ih =>
    intro h
    obtain ⟨el, c, hkey, he1, he2, hpc⟩ := h e (List.mem_cons_self e t)
    have hinf : inferElementFromMaterial e.1 e.2 = some el := by
      rw [he1]
      exact infer_elMAT hkey e.2
    have hname : getStandardMaterialName el = e.1 := by
      rw [stdname_elMAT hkey, ← he1]
    obtain ⟨ih1, ih2⟩ := ih (fun x hx => h x (List.mem_cons_of_mem e hx))
    have hcons : analyzeMaterials preserve (e :: t) =
        (e.1, getStandardMaterialName el,
          if preserve then e.2 else getStandardColor el) :: analyzeMaterials preserve t := by
      unfold analyzeMaterials
      rw [List.filterMap_cons]
      rw [hinf]
      rfl
    rw [hcons]
    constructor
    · rw [List.map_cons, ih1]
      congr 1
      rw [hname]
      cases preserve with
      | true =>
        show (e.1, roundColor e.2) = e
        rw [he2, roundColor_idem, ← he2, Prod.mk.eta]
      | false =>
        show (e.1, roundColor (getStandardColor el)) = e
        rw [← hpc rfl, ← he2, Prod.mk.eta]
    · intro m hm
      rw [List.mem_cons] at hm
      rcases hm with hm | hm
      · rw [hm, hname]
      · exact ih2 m hm

/-- C4: material standardization is idempotent: a second run on the
already-standardized mesh changes neither the OBJ material references nor
the MTL material table -- the canonical MAT names match directly on tier 1
and names and colors stay identical. -/
theorem standardize_idempotent (preserve : Bool) (mesh : MeshMaterials) :
    standardizeObjMaterials preserve (standardizeObjMaterials preserve mesh) =
      standardizeObjMaterials preserve mesh := by
  by_cases h0 : (analyzeMaterials preserve mesh.mtl).isEmpty
  · have h1 : standardizeObjMaterials preserve mesh = mesh := by
      unfold standardizeObjMaterials
      rw [if_pos h0]
    rw [h1]
    exact h1
  · have hmesh1 : standardizeObjMaterials preserve mesh =
        ⟨updateObjRefs (analyzeMaterials preserve mesh.mtl) mesh.objRefs,
         rewriteMtlTable (analyzeMaterials preserve mesh.mtl)⟩ := by
      unfold standardizeObjMaterials
      rw [if_neg h0]
    have hgood : ∀ e ∈ rewriteMtlTable (analyzeMaterials preserve mesh.mtl),
        GoodEntry preserve e := rewrite_entries_good preserve mesh.mtl
    obtain ⟨hmap, hself⟩ := second_pass_analyze preserve _ hgood
    have hnodup : ((rewriteMtlTable (analyzeMaterials preserve mesh.mtl)).map
        Prod.fst).Nodup := dictOfList_keys_nodup _
    have hmtl1ne : rewriteMtlTable (analyzeMaterials preserve mesh.mtl) ≠ [] := by
      unfold rewriteMtlTable
      refine dictOfList_ne_nil _ ?_
      intro hx
      rw [List.map_eq_nil_iff] at hx
      exact (by simpa [List.isEmpty_iff] using h0 : _ ≠ []) hx
    have han2ne : ¬(analyzeMaterials preserve
        (rewriteMtlTable (analyzeMaterials preserve mesh.mtl))).isEmpty = true := by
      rw [List.isEmpty_iff]
      intro hx
      rw [hx] at hmap
      exact hmtl1ne hmap.symm
    rw [hmesh1]
    unfold standardizeObjMaterials
    rw [if_neg han2ne]
    have hre : ∀ mp : MatMapping, rewriteMtlTable mp =
        dictOfList (mp.map (fun m => (m.2.1, roundColor m.2.2))) := fun _ => rfl
    have hmtl2 : rewriteMtlTable (analyzeMaterials preserve
        (rewriteMtlTable (analyzeMaterials preserve mesh.mtl))) =
        rewriteMtlTable (analyzeMaterials preserve mesh.mtl) := by
      rw [hre (analyzeMaterials preserve
        (rewriteMtlTable (analyzeMaterials preserve mesh.mtl))), hmap]
      exact dictOfList_id _ hnodup
    have hrefs : updateObjRefs (analyzeMaterials preserve
        (rewriteMtlTable (analyzeMaterials preserve mesh.mtl)))
        (updateObjRefs (analyzeMaterials preserve mesh.mtl) mesh.objRefs) =
        updateObjRefs (analyzeMaterials preserve mesh.mtl) mesh.objRefs := by
      unfold updateObjRefs
      refine Eq.trans (List.map_congr_left ?_) (List.map_id _)
      intro r _
      cases hf : (analyzeMaterials preserve
          (rewriteMtlTable (analyzeMaterials preserve mesh.mtl))).find?
          (fun m => m.1 == r) with
      | none => rfl
      | some m =>
        have hmem := List.mem_of_find?_eq_some hf
        have hcond := List.find?_some hf
        show m.2.1 = id r
        rw [hself m hmem]
        exact eq_of_beq hcond
    rw [hmtl2, hrefs]

/-- C8 (amended): a material that no inference tier resolves is non-fatal,
but it is not kept: when at least one other material resolves, the
rewritten MTL table omits the unresolved material entirely; when no
material resolves, the mesh is returned unchanged (original color, not a
neutral default written into the table). -/
theorem unresolved_material_dropped (preserve : Bool) (mesh : MeshMaterials)
    (k : String) (c : Color) (_hm : (k, c) ∈ mesh.mtl)
    (hu : inferElementFromMaterial k c = none) :
    (analyzeMaterials preserve mesh.mtl = [] →
      standardizeObjMaterials preserve mesh = mesh) ∧
    (analyzeMaterials preserve mesh.mtl ≠ [] →
      ∀ v, (k, v) ∉ (standardizeObjMaterials preserve mesh).mtl) := by
  constructor
  · intro h0
    unfold standardizeObjMaterials
    rw [if_pos (by simp [h0])]
  · intro hne v hmem
    have hout : (standardizeObjMaterials preserve mesh).mtl =
        rewriteMtlTable (analyzeMaterials preserve mesh.mtl) := by
      unfold standardizeObjMaterials
      rw [if_neg (by simpa [List.isEmpty_iff] using hne)]
    rw [hout] at hmem
    obtain ⟨el, c2, hkey, hk1, -, -⟩ :=
      rewrite_entries_good preserve mesh.mtl (k, v) hmem
    have hk2 : inferElementFromMaterial k c = some el := by
      rw [show k = el ++ "_MAT" from hk1]
      exact infer_elMAT hkey c
    rw [hu] at hk2
    exact Option.noConfusion hk2

/-- C8 counterexample: in a mesh with a resolvable material (atom_Na) and
an unresolvable one (unknown1, black), the unresolved material is present
in the input table, standardization runs, and the output table no longer
contains it -- it was dropped, not kept with a neutral default color. -/
theorem unresolved_material_dropped_cex :
    (meshNaUnknown.mtl.any (fun e => e.1 == "unknown1") = true) ∧
    ((standardizeObjMaterials false meshNaUnknown).mtl.any
      (fun e => e.1 == "unknown1") = false) ∧
    ((standardizeObjMaterials false meshNaUnknown).mtl.any
      (fun e => e.1 == "Na_MAT") = true) := by
  decide

/-- C8 witness for the amended statement at the concrete mesh. -/
theorem unresolved_material_dropped_witness :
    ("unknown1", (((0:Int), (1:Int)), ((0:Int), (1:Int)), ((0:Int), (1:Int)))) ∉
      (standardizeObjMaterials false meshNaUnknown).mtl :=
  (unresolved_material_dropped false meshNaUnknown "unknown1" ((0, 1), (0, 1), (0, 1))
    (by decide) (by decide)).2 (by decide) (((0, 1), (0, 1), (0, 1)))
